import Mathlib

/-!
Fingerprint patch (`browser-image/fingerprint_patch.js`).

A shallow embedding of the injection routine: the global environment of a
browsing context is an explicit record, the routine is a function on it, the
functions it installs (`navigator.permissions.query`, `window.open`) are
defunctionalised and interpreted by `callQuery` / `callOpen`, and the values
handed to page scripts (plugin list objects, plugin entries, locale arrays,
iterators) live in an explicit page heap.
-/

namespace FingerprintPatch

/-! ## JavaScript values -/

/-- JavaScript values as far as the routine inspects them.  A function is
identified by its `name`; a promise is one already resolved with `value`. -/
inductive JSVal where
  | undefined
  | null
  | bool (b : Bool)
  | num (n : Int)
  | str (s : String)
  | fn (name : String)
  | obj (props : List (String × JSVal))
  | promise (value : JSVal)

/-- Own properties of a plain object, in insertion order. -/
abbrev Props := List (String × JSVal)

/-- JavaScript truthiness (`if (v)`, `v && ...`). -/
def truthy : JSVal → Bool
  | .undefined => false
  | .null => false
  | .bool b => b
  | .num n => n != 0
  | .str s => s != ""
  | .fn _ => true
  | .obj _ => true
  | .promise _ => true

/-- Property lookup in a property list: `o[k]`, `undefined` when missing. -/
def lookupProp : Props → String → JSVal
  | [], _ => .undefined
  | (k', v) :: rest, k => if k' = k then v else lookupProp rest k

/-- Whether a property list has key `k`: `k in o` for own properties. -/
def hasProp : Props → String → Bool
  | [], _ => false
  | (k', _) :: rest, k => if k' = k then true else hasProp rest k

/-- Property read `v.k` on a truthy value: objects look the key up, a function
has its `name`, every other truthy value has no such property. -/
def getProp : JSVal → String → JSVal
  | .obj props, k => lookupProp props k
  | .fn name, k => if k = "name" then .str name else .undefined
  | _, _ => .undefined

/-- Assignment `o[k] = v` on a plain object: an existing key keeps its place,
a new key is appended. -/
def setProp : Props → String → JSVal → Props
  | [], k, v => [(k, v)]
  | (k', v') :: rest, k, v => if k' = k then (k, v) :: rest else (k', v') :: setProp rest k v

/-- `Object.assign(target, source)` on plain objects: every own key of
`source`, in order, is assigned onto `target` (a shallow copy). -/
def objectAssign (target source : Props) : Props :=
  source.foldl (fun t kv => setProp t kv.1 kv.2) target

/-- How a call ends. -/
inductive Outcome where
  | returned (v : JSVal)
  | threw (e : JSVal)

/-- How a statement sequence ends. -/
inductive Completion where
  | normal
  | threw (error : String)
  deriving DecidableEq, Repr

/-! ## The global environment of one browsing context -/

/-- A function installed as `navigator.permissions.query`: the one the host
provided, or the patch's wrapper around `originalPermissionsQuery`. -/
inductive QueryFn where
  | host
  | patched (originalPermissionsQuery : QueryFn)
  deriving DecidableEq, Repr

/-- A function installed as `window.open`: the one the host provided, or the
patch's wrapper around `originalWindowOpen`. -/
inductive OpenFn where
  | host
  | patched (originalWindowOpen : OpenFn)
  deriving DecidableEq, Repr

/-- The object `navigator.permissions`; `query` is `none` when it has no such
member. -/
structure Permissions where
  query : Option QueryFn
  deriving DecidableEq, Repr

/-- The value of `window.chrome`. -/
inductive Namespace where
  | undefined
  | null
  | obj (props : Props)

/-- One plugin entry object. -/
structure Plugin where
  name : String
  filename : String
  description : String
  deriving DecidableEq, Repr

/-- The value of the global property `inject` of a window: the script itself
never defines it, so it is `undefined` unless the launcher installed the patch
routine under that name. -/
inductive GlobalInject where
  | undefined
  | patchRoutine
  deriving DecidableEq, Repr

/-- The `this` value of a call of `window.open`. -/
inductive Recv where
  | undefined
  | window (id : Nat)
  | other
  deriving DecidableEq, Repr

/-- A task scheduled with `setTimeout`. -/
inductive Timer where
  | selfCheck (delay : Nat)
  | reinject (this : Recv) (newWindow : Nat) (delay : Nat)
  deriving DecidableEq, Repr

/-- The global environment of one browsing context, as far as the routine reads
or writes it.  `mutations` is instrumentation: it counts the property
definitions, assignments and attribute removals executed so far. -/
structure Ctx where
  /-- The guard `window._fingerprintPatched`. -/
  fingerprintPatched : JSVal
  /-- What the host's own `navigator.webdriver` reports. -/
  webdriverNative : Bool
  /-- The value returned by the accessor defined on `navigator`, if any. -/
  webdriverGetter : Option Bool
  /-- The object `navigator.permissions`, `none` when undefined or null. -/
  permissions : Option Permissions
  /-- The value of `window.chrome`. -/
  chrome : Namespace
  /-- The host's own plugin list. -/
  pluginsNative : List Plugin
  /-- The array `mockPlugins` captured by the `navigator.plugins` accessor, if
  that accessor is defined. -/
  pluginsMock : Option (List Plugin)
  /-- The host's own `navigator.languages`. -/
  languagesNative : List String
  /-- Whether the accessor returning the fixed locale array is defined. -/
  languagesGetter : Bool
  /-- The host's own `navigator.userAgent`. -/
  userAgentNative : List Char
  /-- The string `originalUserAgent` captured by the `navigator.userAgent`
  accessor, if that accessor is defined. -/
  userAgentGetter : Option (List Char)
  /-- The attribute names present on `document.documentElement`, `none` when
  the document has no root element (the property is null). -/
  documentElement : Option (List String)
  /-- The value of `window.open`, `none` when absent. -/
  windowOpen : Option OpenFn
  /-- The value of `window.inject`. -/
  injectProp : GlobalInject
  /-- Whether `window.checkFingerprint` is defined. -/
  checkFingerprint : Bool
  /-- Pending `setTimeout` tasks of this context. -/
  timers : List Timer
  /-- Number of mutating statements executed. -/
  mutations : Nat

/-! ## The pieces of the routine -/

/-- Section 1: `Object.defineProperty(navigator, 'webdriver', { get: () => false })`. -/
def patchWebdriver (c : Ctx) : Ctx :=
  { c with webdriverGetter := some false, mutations := c.mutations + 1 }

/-- Section 2: wrap `navigator.permissions.query` when
`navigator.permissions?.query` is truthy. -/
def patchPermissions (c : Ctx) : Ctx :=
  match c.permissions with
  | some p =>
    match p.query with
    | some originalPermissionsQuery =>
      { c with permissions := some { p with query := some (.patched originalPermissionsQuery) },
               mutations := c.mutations + 1 }
    | none => c
  | none => c

/-- The object literal `chromePatch`. -/
def chromePatch : Props :=
  [("runtime", .obj
      [("id", .str "fingerprintpatch"),
       ("getManifest", .fn "getManifest"),
       ("connect", .fn "connect"),
       ("sendMessage", .fn "sendMessage"),
       ("onMessage", .obj [("addListener", .fn "addListener")])]),
   ("loadTimes", .fn "loadTimes"),
   ("csi", .fn "csi"),
   ("app", .obj
      [("isInstalled", .bool false),
       ("InstallState", .obj
          [("DISABLED", .str "disabled"),
           ("INSTALLED", .str "installed"),
           ("NOT_INSTALLED", .str "not_installed")]),
       ("RunningState", .obj
          [("CANNOT_RUN", .str "cannot_run"),
           ("READY_TO_RUN", .str "ready_to_run"),
           ("RUNNING", .str "running")])])]

/-- Section 3: `if (typeof window.chrome !== 'undefined') Object.assign(window.chrome, chromePatch)`.
`typeof null` is `'object'`, so a null namespace reaches `Object.assign`, which
throws a `TypeError` on a null target: the result is then `none`. -/
def patchChrome (c : Ctx) : Option Ctx :=
  match c.chrome with
  | .undefined => some c
  | .null => none
  | .obj props =>
    some { c with chrome := .obj (objectAssign props chromePatch), mutations := c.mutations + 1 }

/-- The array literal `mockPlugins`. -/
def mockPlugins : List Plugin :=
  [{ name := "Chrome PDF Plugin", filename := "internal-pdf-viewer",
     description := "Portable Document Format" },
   { name := "Chrome PDF Viewer", filename := "mhjfbmdgcfjbbpaeojofohoefgiehjai",
     description := "" },
   { name := "Native Client", filename := "internal-nacl-plugin", description := "" }]

/-- Section 4: define the `navigator.plugins` accessor over a new `mockPlugins`. -/
def patchPlugins (c : Ctx) : Ctx :=
  { c with pluginsMock := some mockPlugins, mutations := c.mutations + 1 }

/-- The array literal returned by the `navigator.languages` accessor. -/
def mockLanguages : List String := ["en-US", "en", "ru-RU", "ru"]

/-- Section 5: define the `navigator.languages` accessor. -/
def patchLanguages (c : Ctx) : Ctx :=
  { c with languagesGetter := true, mutations := c.mutations + 1 }

/-! ## The identity string -/

/-- The automation marker token of the pattern. -/
def headlessChrome : List Char := "HeadlessChrome".toList

/-- The headless-Linux marker token of the pattern. -/
def x11Linux : List Char := "X11; Linux".toList

/-- The replacement text. -/
def desktopMarker : List Char := "Windows NT 10.0; Win64; x64".toList

/-- `s.includes(p)`: is `p` a contiguous part of `s`. -/
def includes : List Char → List Char → Bool
  | [], p => p.isEmpty
  | c :: s, p => p.isPrefixOf (c :: s) || includes s p

/-- `s.replace(/HeadlessChrome|X11; Linux/g, desktopMarker)`, scanning left to
right.  `skip` is the number of characters still covered by the match found
last (the search resumes where that match ended); at every other position the
alternatives are tried in order, a match emits the replacement, and a position
with no match emits its character. -/
def replaceFrom : Nat → List Char → List Char
  | _, [] => []
  | skip + 1, _ :: s => replaceFrom skip s
  | 0, c :: s =>
    if headlessChrome.isPrefixOf (c :: s) then
      desktopMarker ++ replaceFrom (headlessChrome.length - 1) s
    else if x11Linux.isPrefixOf (c :: s) then
      desktopMarker ++ replaceFrom (x11Linux.length - 1) s
    else c :: replaceFrom 0 s

/-- The body of the `navigator.userAgent` accessor. -/
def replaceMarkers (originalUserAgent : List Char) : List Char :=
  replaceFrom 0 originalUserAgent

/-- Read of `navigator.userAgent`. -/
def readUserAgent (c : Ctx) : List Char :=
  match c.userAgentGetter with
  | some originalUserAgent => replaceMarkers originalUserAgent
  | none => c.userAgentNative

/-- Section 6: define the `navigator.userAgent` accessor when the original
string includes `Headless` or `X11; Linux`. -/
def patchUserAgent (c : Ctx) : Ctx :=
  let originalUserAgent := readUserAgent c
  if includes originalUserAgent "Headless".toList || includes originalUserAgent x11Linux then
    { c with userAgentGetter := some originalUserAgent, mutations := c.mutations + 1 }
  else c

/-- `element.removeAttribute(name)`. -/
def removeAttribute (attrs : List String) (name : String) : List String :=
  attrs.filter (fun a => a != name)

/-- Section 7: remove the three automation attributes from the root element.
The element is dereferenced without a test, so a null `documentElement` makes
the first call throw a `TypeError`: the result is then `none`. -/
def scrubDom (c : Ctx) : Option Ctx :=
  match c.documentElement with
  | none => none
  | some attrs =>
    some { c with
      documentElement :=
        some (removeAttribute (removeAttribute (removeAttribute attrs "webdriver") "selenium")
          "driver"),
      mutations := c.mutations + 3 }

/-- Section 8: wrap `window.open` when it is truthy. -/
def hookWindowOpen (c : Ctx) : Ctx :=
  match c.windowOpen with
  | some originalWindowOpen =>
    { c with windowOpen := some (.patched originalWindowOpen), mutations := c.mutations + 1 }
  | none => c

/-- The helper section: define `window.checkFingerprint` and schedule it. -/
def installSelfCheck (c : Ctx) : Ctx :=
  { c with checkFingerprint := true, timers := c.timers ++ [.selfCheck 2000],
           mutations := c.mutations + 1 }

/-! ## The routine -/

/-- What one run of the routine leaves behind: the environment, the lines
written to the console, and how the run ended. -/
structure Run where
  ctx : Ctx
  console : List String
  completion : Completion

/-- The assignment `window._fingerprintPatched = true`. -/
def setGuard (c : Ctx) : Ctx :=
  { c with fingerprintPatched := .bool true, mutations := c.mutations + 1 }

/-- The injection routine, the whole function body of the script. -/
def inject (c : Ctx) : Run :=
  if truthy c.fingerprintPatched then
    { ctx := c, console := ["[Fingerprint] Already patched, skipping"], completion := .normal }
  else
    let c := patchPermissions (patchWebdriver (setGuard c))
    match patchChrome c with
    | none =>
      { ctx := c, console := ["[Fingerprint Patch] Starting full injection..."],
        completion := .threw "TypeError" }
    | some c =>
      let c := patchUserAgent (patchLanguages (patchPlugins c))
      match scrubDom c with
      | none =>
        { ctx := c, console := ["[Fingerprint Patch] Starting full injection..."],
          completion := .threw "TypeError" }
      | some c =>
        { ctx := installSelfCheck (hookWindowOpen c),
          console := ["[Fingerprint Patch] Starting full injection...",
                      "[Fingerprint Patch] Full injection completed successfully!"],
          completion := .normal }

/-! ## Reads of the patched surfaces -/

/-- Read of `navigator.webdriver`. -/
def readWebdriver (c : Ctx) : Bool :=
  match c.webdriverGetter with
  | some v => v
  | none => c.webdriverNative

/-- Read of `navigator.languages`: the accessor builds its array anew. -/
def readLanguages (c : Ctx) : List String :=
  if c.languagesGetter then mockLanguages else c.languagesNative

/-- The array behind `navigator.plugins`. -/
def pluginEntries (c : Ctx) : List Plugin :=
  match c.pluginsMock with
  | some entries => entries
  | none => c.pluginsNative

/-- Read of `navigator.plugins.length`. -/
def pluginsLength (c : Ctx) : Nat := (pluginEntries c).length

/-- The mock's `item`: `mockPlugins[index] || null` for an integer index. -/
def item (entries : List Plugin) (index : Int) : Option Plugin :=
  if 0 ≤ index then entries.get? index.toNat else none

/-- The mock's `namedItem`: `mockPlugins.find(p => p.name === name) || null`. -/
def namedItem (entries : List Plugin) (name : String) : Option Plugin :=
  entries.find? (fun p => p.name == name)

/-! ## Calling the installed functions -/

/-- The value `Promise.resolve({ state: state, onchange: null })`. -/
def resolvedStatus (state : String) : JSVal :=
  .promise (.obj [("state", .str state), ("onchange", .null)])

/-- The test `parameters && parameters.name === literal`. -/
def nameIs (parameters : JSVal) (literal : String) : Bool :=
  truthy parameters &&
    (match getProp parameters "name" with
     | .str s => s == literal
     | _ => false)

/-- A call `f.call(this, parameters)` of a permission-query function, given the
behaviour `hostQuery` of the function the host provided. -/
def callQuery (hostQuery : JSVal → JSVal → Outcome) : QueryFn → JSVal → JSVal → Outcome
  | .host, this, parameters => hostQuery this parameters
  | .patched originalPermissionsQuery, this, parameters =>
    if nameIs parameters "sandbox" then .returned (resolvedStatus "granted")
    else if nameIs parameters "notifications" then .returned (resolvedStatus "prompt")
    else callQuery hostQuery originalPermissionsQuery this parameters

/-- A window as seen from its opener: its environment, and whether
`newWindow.eval(script)` runs the script there (it throws when the window is
cross-origin or closed). -/
structure Win where
  ctx : Ctx
  evalAllowed : Bool

/-- All browsing contexts; a window handle is an index. -/
abbrev World := List Win

/-- What the host's own `window.open` does on one call. -/
inductive HostOpened where
  | threw (e : JSVal)
  | null
  | fresh (w : Win)
  | existing (id : Nat)

/-- What a call of `window.open` gives its caller. -/
inductive OpenResult where
  | threw (e : JSVal)
  | null
  | window (id : Nat)

/-- A finished call of `window.open`: the world afterwards, the result, and
the calls of the host's own entry point made on the way, with their receiver
and arguments. -/
structure OpenCall where
  world : World
  result : OpenResult
  hostCalls : List (Recv × List JSVal)

/-- Apply `f` to the element at position `i`, if there is one. -/
def updateAt {α : Type} : List α → Nat → (α → α) → List α
  | [], _, _ => []
  | a :: rest, 0, f => f a :: rest
  | a :: rest, i + 1, f => a :: updateAt rest i f

/-- `setTimeout(task, delay)` in the context `owner`. -/
def schedule (w : World) (owner : Nat) (t : Timer) : World :=
  updateAt w owner (fun win => { win with ctx := { win.ctx with timers := win.ctx.timers ++ [t] } })

/-- A call of the host's own `window.open`. -/
def hostOpen (host : World → Recv → List JSVal → HostOpened) (w : World) (this : Recv)
    (args : List JSVal) : OpenCall :=
  match host w this args with
  | .threw e => { world := w, result := .threw e, hostCalls := [(this, args)] }
  | .null => { world := w, result := .null, hostCalls := [(this, args)] }
  | .fresh nw => { world := w ++ [nw], result := .window w.length, hostCalls := [(this, args)] }
  | .existing id => { world := w, result := .window id, hostCalls := [(this, args)] }

/-- A call `f.apply(this, args)` of a function installed as `window.open` in
the context `owner`. -/
def callOpen (host : World → Recv → List JSVal → HostOpened) (owner : Nat) :
    OpenFn → World → Recv → List JSVal → OpenCall
  | .host, w, this, args => hostOpen host w this args
  | .patched originalWindowOpen, w, this, args =>
    let r := callOpen host owner originalWindowOpen w this args
    match r.result with
    | .window newWindow =>
      { r with world := schedule r.world owner (.reinject this newWindow 500) }
    | _ => r

/-- A call of whatever is installed as `window.open` in window `id`; calling
an absent entry point is a `TypeError`. -/
def openFrom (host : World → Recv → List JSVal → HostOpened) (w : World) (id : Nat)
    (this : Recv) (args : List JSVal) : OpenCall :=
  match (w.get? id).bind (fun win => win.ctx.windowOpen) with
  | some f => callOpen host id f w this args
  | none => { world := w, result := .threw (.str "TypeError"), hostCalls := [] }

/-- The expression `this.inject.toString()`: `none` when it throws, which it
does unless `this` is a window whose global `inject` is a function. -/
def injectSource (w : World) : Recv → Option GlobalInject
  | .window id =>
    match w.get? id with
    | some opener =>
      match opener.ctx.injectProp with
      | .patchRoutine => some .patchRoutine
      | .undefined => none
    | none => none
  | _ => none

/-- The statements inside `try` of the deferred task. -/
def reinjectBody (w : World) (this : Recv) (newWindow : Nat) : World × Completion :=
  match injectSource w this with
  | none => (w, .threw "TypeError")
  | some _ =>
    match w.get? newWindow with
    | none => (w, .threw "TypeError")
    | some target =>
      if target.evalAllowed then
        let r := inject target.ctx
        (updateAt w newWindow (fun t => { t with ctx := r.ctx }), r.completion)
      else (w, .threw "SecurityError")

/-- Run a scheduled task.  The re-injection task is `try { ... } catch(e) {}`;
the self-check only reads and writes to the console. -/
def runTask (w : World) : Timer → World × Completion
  | .reinject this newWindow _ => ((reinjectBody w this newWindow).1, .normal)
  | .selfCheck _ => (w, .normal)

/-! ## Page scripts and the values the accessors return -/

/-- The object returned by one read of `navigator.plugins`: `length` is its
own writable data property, the methods close over `mockPlugins`. -/
structure PluginArray where
  length : Int
  deriving DecidableEq, Repr

/-- A generator made by the mock's `Symbol.iterator` method. -/
structure PluginIter where
  i : Nat
  finished : Bool
  deriving DecidableEq, Repr

/-- A generator that has not run yet. -/
def PluginIter.start : PluginIter := { i := 0, finished := false }

/-- One call of `next()`: the value yielded (`none` when done) and the
generator afterwards. -/
def PluginIter.next (entries : List Plugin) (g : PluginIter) : Option Plugin × PluginIter :=
  if g.finished then (none, g)
  else
    match entries.get? g.i with
    | some p => (some p, { g with i := g.i + 1 })
    | none => (none, { g with finished := true })

/-- Drive a generator with at most `fuel` calls of `next()`, collecting what it
yields; the flag tells whether it reported the end. -/
def collect (entries : List Plugin) : Nat → PluginIter → List Plugin × Bool
  | 0, _ => ([], false)
  | fuel + 1, g =>
    match g.next entries with
    | (some p, g') => (p :: (collect entries fuel g').1, (collect entries fuel g').2)
    | (none, _) => ([], true)

/-- A field of a plugin entry. -/
inductive Field where
  | name
  | filename
  | description
  deriving DecidableEq, Repr

/-- How a page script got hold of a plugin entry. -/
inductive Lookup where
  | byIndex (index : Int)
  | byName (name : String)
  | byIteration (position : Nat)
  deriving DecidableEq, Repr

/-- The position of the first entry whose name is `name`, the entry that
`find` returns. -/
def firstNamed : List Plugin → String → Option Nat
  | [], _ => none
  | p :: rest, name => if p.name == name then some 0 else (firstNamed rest name).map (· + 1)

/-- The position in `mockPlugins` of the entry a lookup returns, `none` when the
lookup returns null (or the enumeration ends earlier). -/
def Lookup.resolve (entries : List Plugin) : Lookup → Option Nat
  | .byIndex index => if 0 ≤ index ∧ index.toNat < entries.length then some index.toNat else none
  | .byName name => firstNamed entries name
  | .byIteration position => if position < entries.length then some position else none

/-- Assignment `entry.field = v`. -/
def Plugin.assign (p : Plugin) : Field → String → Plugin
  | .name, v => { p with name := v }
  | .filename, v => { p with filename := v }
  | .description, v => { p with description := v }

/-- Assignment `a.length = n` on an array: the array is cut to `n` elements, or
grows to `n` with empty slots (`none`). -/
def arraySetLength (a : List (Option String)) (n : Nat) : List (Option String) :=
  a.take n ++ List.replicate (n - a.length) none

/-- Assignment `a[index] = v` on an array: an index past the end first grows
the array with empty slots. -/
def arraySet (a : List (Option String)) (index : Nat) (v : String) : List (Option String) :=
  updateAt (arraySetLength a (max a.length (index + 1))) index (fun _ => some v)

/-- A page: the environment plus the objects earlier reads returned.  An
element of a locale array is a string or an empty slot. -/
structure Page where
  ctx : Ctx
  pluginArrays : List PluginArray
  iterators : List PluginIter
  languageArrays : List (List (Option String))

/-- What a page script does with the plugin list, the locale list and the
values they return. -/
inductive PageOp where
  | readPlugins
  | refresh
  | setLength (array : Nat) (v : Int)
  | startIteration
  | next (iterator : Nat)
  | assignField (entry : Lookup) (field : Field) (v : String)
  | readLanguages
  | pushLanguage (array : Nat) (v : String)
  | setLanguage (array : Nat) (index : Nat) (v : String)
  | setLanguagesLength (array : Nat) (n : Nat)
  deriving DecidableEq, Repr

/-- Whether the operation assigns to a field of a plugin entry. -/
def PageOp.isEntryWrite : PageOp → Bool
  | .assignField _ _ _ => true
  | _ => false

/-- One operation of a page script.  Entries of the mock are the shared objects
of `mockPlugins`, so an assignment to one changes the array the accessor's
closures read; the host's own entries are read-only. -/
def Page.step (p : Page) : PageOp → Page
  | .readPlugins =>
    { p with pluginArrays := p.pluginArrays ++ [{ length := (pluginEntries p.ctx).length }] }
  | .refresh => p
  | .setLength array v =>
    { p with pluginArrays := updateAt p.pluginArrays array (fun a => { a with length := v }) }
  | .startIteration => { p with iterators := p.iterators ++ [PluginIter.start] }
  | .next iterator =>
    { p with iterators :=
        updateAt p.iterators iterator (fun g => (g.next (pluginEntries p.ctx)).2) }
  | .assignField entry field v =>
    match p.ctx.pluginsMock with
    | some entries =>
      match entry.resolve entries with
      | some k =>
        { p with ctx :=
            { p.ctx with pluginsMock := some (updateAt entries k (fun e => e.assign field v)) } }
      | none => p
    | none => p
  | .readLanguages =>
    { p with languageArrays := p.languageArrays ++ [(readLanguages p.ctx).map some] }
  | .pushLanguage array v =>
    { p with languageArrays := updateAt p.languageArrays array (fun a => a ++ [some v]) }
  | .setLanguage array index v =>
    { p with languageArrays := updateAt p.languageArrays array (fun a => arraySet a index v) }
  | .setLanguagesLength array n =>
    { p with languageArrays := updateAt p.languageArrays array (fun a => arraySetLength a n) }

/-- A page script: its operations in order. -/
def Page.run (p : Page) (ops : List PageOp) : Page :=
  ops.foldl Page.step p

/-- The page right after the routine ran: nothing has been read yet. -/
def Page.ofCtx (c : Ctx) : Page :=
  { ctx := c, pluginArrays := [], iterators := [], languageArrays := [] }

/-- The function found at `navigator.permissions.query`, if any. -/
def installedQuery (c : Ctx) : Option QueryFn :=
  c.permissions.bind (fun p => p.query)

/-! ## The identity string, as the specification words it -/

/-- Whether one of the two marker tokens of the pattern occurs in `s`. -/
def hasMarker (s : List Char) : Bool :=
  includes s headlessChrome || includes s x11Linux

/-- The relation "`out` is `s` with every occurrence of one of the `markers`
replaced by `replacement` and every other character left in place": a string
in which no marker occurs is kept as it is; otherwise the string is cut at an
occurrence `t` that has no marker before it, the part `a` before it is kept,
the occurrence becomes the replacement, and the part `b` after it is treated
in the same way. -/
inductive MarkersReplacedBy (markers : List (List Char)) (replacement : List Char) :
    List Char → List Char → Prop
  | clean (s : List Char) :
      (∀ m ∈ markers, ¬ m <:+: s) → MarkersReplacedBy markers replacement s s
  | occurrence (a t b out : List Char) :
      (∀ m ∈ markers, ¬ m <:+: a) → t ∈ markers →
      MarkersReplacedBy markers replacement b out →
      MarkersReplacedBy markers replacement (a ++ t ++ b) (a ++ replacement ++ out)

/-- The own properties of the object at `window.chrome`, none when it is not
an object. -/
def chromeProps (c : Ctx) : Props :=
  match c.chrome with
  | .obj props => props
  | _ => []

/-- The top-level keys of `chromePatch`. -/
def chromePatchKeys : List String := chromePatch.map (fun kv => kv.1)

/-! ## Sample hosts -/

/-- A headless Chrome on Linux under automation: every optional target is
present, the launcher defined no global `inject`. -/
def headlessHost : Ctx :=
  { fingerprintPatched := .undefined
    webdriverNative := true
    webdriverGetter := none
    permissions := some { query := some .host }
    chrome := .obj [("app", .obj [("getDetails", .fn "getDetails"), ("isInstalled", .bool false)]),
                    ("webstore", .obj [])]
    pluginsNative := []
    pluginsMock := none
    languagesNative := ["en-US"]
    languagesGetter := false
    userAgentNative :=
      "Mozilla/5.0 (X11; Linux x86_64) AppleWebKit/537.36 HeadlessChrome/120.0.0.0 Safari/537.36".toList
    userAgentGetter := none
    documentElement := some ["lang", "webdriver"]
    windowOpen := some .host
    injectProp := .undefined
    checkFingerprint := false
    timers := []
    mutations := 0 }

/-- An engine with none of the optional targets. -/
def bareHost : Ctx :=
  { headlessHost with
    permissions := none, chrome := .undefined, windowOpen := none,
    userAgentNative := "Mozilla/5.0 (Macintosh) Gecko/20100101 Firefox/120.0".toList,
    documentElement := some [] }

/-- The same engine with `window.chrome` set to null. -/
def nullNamespaceHost : Ctx :=
  { bareHost with chrome := .null }

/-- The same engine at a moment when the document has no root element yet. -/
def rootlessHost : Ctx :=
  { bareHost with documentElement := none }

/-- A permission query of the host that rejects everything. -/
def denyingQuery : JSVal → JSVal → Outcome :=
  fun _ _ => .threw (.str "TypeError")

/-- A new same-origin window of the headless sample host, not yet patched. -/
def blankWindow : Win :=
  { ctx := headlessHost, evalAllowed := true }

/-- A host whose `window.open` always creates a new scriptable window. -/
def openingHost : World → Recv → List JSVal → HostOpened :=
  fun _ _ _ => .fresh blankWindow

/-- A host whose `window.open` is blocked and returns null. -/
def blockingHost : World → Recv → List JSVal → HostOpened :=
  fun _ _ _ => .null

/-- The world with one window: the headless sample host after the routine ran
in it. -/
def patchedWorld : World :=
  [{ ctx := (inject headlessHost).ctx, evalAllowed := true }]

/-- The world with one window in which the launcher had defined the global
`inject` as the patch routine before the routine ran. -/
def launcherWorld : World :=
  [{ ctx := (inject { headlessHost with injectProp := .patchRoutine }).ctx, evalAllowed := true }]

/-- The automation flag read in window `id`, if there is such a window. -/
def webdriverIn (w : World) (id : Nat) : Option Bool :=
  (w.get? id).map (fun win => readWebdriver win.ctx)

/-- The timers pending in window `id`. -/
def timersIn (w : World) (id : Nat) : List Timer :=
  match w.get? id with
  | some win => win.ctx.timers
  | none => []

/-! # Theorems -/

/-! ## What each section leaves alone -/

@[simp] theorem setGuard_webdriverGetter (c : Ctx) :
    (setGuard c).webdriverGetter = c.webdriverGetter := rfl
@[simp] theorem setGuard_permissions (c : Ctx) :
    (setGuard c).permissions = c.permissions := rfl
@[simp] theorem setGuard_chrome (c : Ctx) :
    (setGuard c).chrome = c.chrome := rfl
@[simp] theorem setGuard_pluginsMock (c : Ctx) :
    (setGuard c).pluginsMock = c.pluginsMock := rfl
@[simp] theorem setGuard_languagesGetter (c : Ctx) :
    (setGuard c).languagesGetter = c.languagesGetter := rfl
@[simp] theorem setGuard_userAgentNative (c : Ctx) :
    (setGuard c).userAgentNative = c.userAgentNative := rfl
@[simp] theorem setGuard_userAgentGetter (c : Ctx) :
    (setGuard c).userAgentGetter = c.userAgentGetter := rfl
@[simp] theorem setGuard_documentElement (c : Ctx) :
    (setGuard c).documentElement = c.documentElement := rfl
@[simp] theorem setGuard_windowOpen (c : Ctx) :
    (setGuard c).windowOpen = c.windowOpen := rfl
@[simp] theorem setGuard_injectProp (c : Ctx) :
    (setGuard c).injectProp = c.injectProp := rfl

@[simp] theorem patchWebdriver_fingerprintPatched (c : Ctx) :
    (patchWebdriver c).fingerprintPatched = c.fingerprintPatched := rfl
@[simp] theorem patchWebdriver_permissions (c : Ctx) :
    (patchWebdriver c).permissions = c.permissions := rfl
@[simp] theorem patchWebdriver_chrome (c : Ctx) :
    (patchWebdriver c).chrome = c.chrome := rfl
@[simp] theorem patchWebdriver_pluginsMock (c : Ctx) :
    (patchWebdriver c).pluginsMock = c.pluginsMock := rfl
@[simp] theorem patchWebdriver_languagesGetter (c : Ctx) :
    (patchWebdriver c).languagesGetter = c.languagesGetter := rfl
@[simp] theorem patchWebdriver_userAgentNative (c : Ctx) :
    (patchWebdriver c).userAgentNative = c.userAgentNative := rfl
@[simp] theorem patchWebdriver_userAgentGetter (c : Ctx) :
    (patchWebdriver c).userAgentGetter = c.userAgentGetter := rfl
@[simp] theorem patchWebdriver_documentElement (c : Ctx) :
    (patchWebdriver c).documentElement = c.documentElement := rfl
@[simp] theorem patchWebdriver_windowOpen (c : Ctx) :
    (patchWebdriver c).windowOpen = c.windowOpen := rfl
@[simp] theorem patchWebdriver_injectProp (c : Ctx) :
    (patchWebdriver c).injectProp = c.injectProp := rfl

@[simp] theorem patchPlugins_fingerprintPatched (c : Ctx) :
    (patchPlugins c).fingerprintPatched = c.fingerprintPatched := rfl
@[simp] theorem patchPlugins_webdriverGetter (c : Ctx) :
    (patchPlugins c).webdriverGetter = c.webdriverGetter := rfl
@[simp] theorem patchPlugins_permissions (c : Ctx) :
    (patchPlugins c).permissions = c.permissions := rfl
@[simp] theorem patchPlugins_chrome (c : Ctx) :
    (patchPlugins c).chrome = c.chrome := rfl
@[simp] theorem patchPlugins_languagesGetter (c : Ctx) :
    (patchPlugins c).languagesGetter = c.languagesGetter := rfl
@[simp] theorem patchPlugins_userAgentNative (c : Ctx) :
    (patchPlugins c).userAgentNative = c.userAgentNative := rfl
@[simp] theorem patchPlugins_userAgentGetter (c : Ctx) :
    (patchPlugins c).userAgentGetter = c.userAgentGetter := rfl
@[simp] theorem patchPlugins_documentElement (c : Ctx) :
    (patchPlugins c).documentElement = c.documentElement := rfl
@[simp] theorem patchPlugins_windowOpen (c : Ctx) :
    (patchPlugins c).windowOpen = c.windowOpen := rfl
@[simp] theorem patchPlugins_injectProp (c : Ctx) :
    (patchPlugins c).injectProp = c.injectProp := rfl

@[simp] theorem patchLanguages_fingerprintPatched (c : Ctx) :
    (patchLanguages c).fingerprintPatched = c.fingerprintPatched := rfl
@[simp] theorem patchLanguages_webdriverGetter (c : Ctx) :
    (patchLanguages c).webdriverGetter = c.webdriverGetter := rfl
@[simp] theorem patchLanguages_permissions (c : Ctx) :
    (patchLanguages c).permissions = c.permissions := rfl
@[simp] theorem patchLanguages_chrome (c : Ctx) :
    (patchLanguages c).chrome = c.chrome := rfl
@[simp] theorem patchLanguages_pluginsMock (c : Ctx) :
    (patchLanguages c).pluginsMock = c.pluginsMock := rfl
@[simp] theorem patchLanguages_userAgentNative (c : Ctx) :
    (patchLanguages c).userAgentNative = c.userAgentNative := rfl
@[simp] theorem patchLanguages_userAgentGetter (c : Ctx) :
    (patchLanguages c).userAgentGetter = c.userAgentGetter := rfl
@[simp] theorem patchLanguages_documentElement (c : Ctx) :
    (patchLanguages c).documentElement = c.documentElement := rfl
@[simp] theorem patchLanguages_windowOpen (c : Ctx) :
    (patchLanguages c).windowOpen = c.windowOpen := rfl
@[simp] theorem patchLanguages_injectProp (c : Ctx) :
    (patchLanguages c).injectProp = c.injectProp := rfl

@[simp] theorem installSelfCheck_fingerprintPatched (c : Ctx) :
    (installSelfCheck c).fingerprintPatched = c.fingerprintPatched := rfl
@[simp] theorem installSelfCheck_webdriverGetter (c : Ctx) :
    (installSelfCheck c).webdriverGetter = c.webdriverGetter := rfl
@[simp] theorem installSelfCheck_permissions (c : Ctx) :
    (installSelfCheck c).permissions = c.permissions := rfl
@[simp] theorem installSelfCheck_chrome (c : Ctx) :
    (installSelfCheck c).chrome = c.chrome := rfl
@[simp] theorem installSelfCheck_pluginsMock (c : Ctx) :
    (installSelfCheck c).pluginsMock = c.pluginsMock := rfl
@[simp] theorem installSelfCheck_languagesGetter (c : Ctx) :
    (installSelfCheck c).languagesGetter = c.languagesGetter := rfl
@[simp] theorem installSelfCheck_userAgentNative (c : Ctx) :
    (installSelfCheck c).userAgentNative = c.userAgentNative := rfl
@[simp] theorem installSelfCheck_userAgentGetter (c : Ctx) :
    (installSelfCheck c).userAgentGetter = c.userAgentGetter := rfl
@[simp] theorem installSelfCheck_documentElement (c : Ctx) :
    (installSelfCheck c).documentElement = c.documentElement := rfl
@[simp] theorem installSelfCheck_windowOpen (c : Ctx) :
    (installSelfCheck c).windowOpen = c.windowOpen := rfl
@[simp] theorem installSelfCheck_injectProp (c : Ctx) :
    (installSelfCheck c).injectProp = c.injectProp := rfl

@[simp] theorem patchPermissions_fingerprintPatched (c : Ctx) :
    (patchPermissions c).fingerprintPatched = c.fingerprintPatched := by
  unfold patchPermissions
  split
  · split <;> rfl
  · rfl

@[simp] theorem patchPermissions_webdriverGetter (c : Ctx) :
    (patchPermissions c).webdriverGetter = c.webdriverGetter := by
  unfold patchPermissions
  split
  · split <;> rfl
  · rfl

@[simp] theorem patchPermissions_chrome (c : Ctx) :
    (patchPermissions c).chrome = c.chrome := by
  unfold patchPermissions
  split
  · split <;> rfl
  · rfl

@[simp] theorem patchPermissions_pluginsMock (c : Ctx) :
    (patchPermissions c).pluginsMock = c.pluginsMock := by
  unfold patchPermissions
  split
  · split <;> rfl
  · rfl

@[simp] theorem patchPermissions_languagesGetter (c : Ctx) :
    (patchPermissions c).languagesGetter = c.languagesGetter := by
  unfold patchPermissions
  split
  · split <;> rfl
  · rfl

@[simp] theorem patchPermissions_userAgentNative (c : Ctx) :
    (patchPermissions c).userAgentNative = c.userAgentNative := by
  unfold patchPermissions
  split
  · split <;> rfl
  · rfl

@[simp] theorem patchPermissions_userAgentGetter (c : Ctx) :
    (patchPermissions c).userAgentGetter = c.userAgentGetter := by
  unfold patchPermissions
  split
  · split <;> rfl
  · rfl

@[simp] theorem patchPermissions_documentElement (c : Ctx) :
    (patchPermissions c).documentElement = c.documentElement := by
  unfold patchPermissions
  split
  · split <;> rfl
  · rfl

@[simp] theorem patchPermissions_windowOpen (c : Ctx) :
    (patchPermissions c).windowOpen = c.windowOpen := by
  unfold patchPermissions
  split
  · split <;> rfl
  · rfl

@[simp] theorem patchPermissions_injectProp (c : Ctx) :
    (patchPermissions c).injectProp = c.injectProp := by
  unfold patchPermissions
  split
  · split <;> rfl
  · rfl

@[simp] theorem patchUserAgent_fingerprintPatched (c : Ctx) :
    (patchUserAgent c).fingerprintPatched = c.fingerprintPatched := by
  simp only [patchUserAgent]
  split <;> rfl

@[simp] theorem patchUserAgent_webdriverGetter (c : Ctx) :
    (patchUserAgent c).webdriverGetter = c.webdriverGetter := by
  simp only [patchUserAgent]
  split <;> rfl

@[simp] theorem patchUserAgent_permissions (c : Ctx) :
    (patchUserAgent c).permissions = c.permissions := by
  simp only [patchUserAgent]
  split <;> rfl

@[simp] theorem patchUserAgent_chrome (c : Ctx) :
    (patchUserAgent c).chrome = c.chrome := by
  simp only [patchUserAgent]
  split <;> rfl

@[simp] theorem patchUserAgent_pluginsMock (c : Ctx) :
    (patchUserAgent c).pluginsMock = c.pluginsMock := by
  simp only [patchUserAgent]
  split <;> rfl

@[simp] theorem patchUserAgent_languagesGetter (c : Ctx) :
    (patchUserAgent c).languagesGetter = c.languagesGetter := by
  simp only [patchUserAgent]
  split <;> rfl

@[simp] theorem patchUserAgent_userAgentNative (c : Ctx) :
    (patchUserAgent c).userAgentNative = c.userAgentNative := by
  simp only [patchUserAgent]
  split <;> rfl

@[simp] theorem patchUserAgent_documentElement (c : Ctx) :
    (patchUserAgent c).documentElement = c.documentElement := by
  simp only [patchUserAgent]
  split <;> rfl

@[simp] theorem patchUserAgent_windowOpen (c : Ctx) :
    (patchUserAgent c).windowOpen = c.windowOpen := by
  simp only [patchUserAgent]
  split <;> rfl

@[simp] theorem patchUserAgent_injectProp (c : Ctx) :
    (patchUserAgent c).injectProp = c.injectProp := by
  simp only [patchUserAgent]
  split <;> rfl

@[simp] theorem hookWindowOpen_fingerprintPatched (c : Ctx) :
    (hookWindowOpen c).fingerprintPatched = c.fingerprintPatched := by
  unfold hookWindowOpen
  split <;> rfl

@[simp] theorem hookWindowOpen_webdriverGetter (c : Ctx) :
    (hookWindowOpen c).webdriverGetter = c.webdriverGetter := by
  unfold hookWindowOpen
  split <;> rfl

@[simp] theorem hookWindowOpen_permissions (c : Ctx) :
    (hookWindowOpen c).permissions = c.permissions := by
  unfold hookWindowOpen
  split <;> rfl

@[simp] theorem hookWindowOpen_chrome (c : Ctx) :
    (hookWindowOpen c).chrome = c.chrome := by
  unfold hookWindowOpen
  split <;> rfl

@[simp] theorem hookWindowOpen_pluginsMock (c : Ctx) :
    (hookWindowOpen c).pluginsMock = c.pluginsMock := by
  unfold hookWindowOpen
  split <;> rfl

@[simp] theorem hookWindowOpen_languagesGetter (c : Ctx) :
    (hookWindowOpen c).languagesGetter = c.languagesGetter := by
  unfold hookWindowOpen
  split <;> rfl

@[simp] theorem hookWindowOpen_userAgentNative (c : Ctx) :
    (hookWindowOpen c).userAgentNative = c.userAgentNative := by
  unfold hookWindowOpen
  split <;> rfl

@[simp] theorem hookWindowOpen_userAgentGetter (c : Ctx) :
    (hookWindowOpen c).userAgentGetter = c.userAgentGetter := by
  unfold hookWindowOpen
  split <;> rfl

@[simp] theorem hookWindowOpen_documentElement (c : Ctx) :
    (hookWindowOpen c).documentElement = c.documentElement := by
  unfold hookWindowOpen
  split <;> rfl

@[simp] theorem hookWindowOpen_injectProp (c : Ctx) :
    (hookWindowOpen c).injectProp = c.injectProp := by
  unfold hookWindowOpen
  split <;> rfl

theorem patchChrome_fingerprintPatched {c d : Ctx} (h : patchChrome c = some d) :
    d.fingerprintPatched = c.fingerprintPatched := by
  unfold patchChrome at h
  split at h <;> simp at h <;> subst h <;> rfl

theorem patchChrome_webdriverGetter {c d : Ctx} (h : patchChrome c = some d) :
    d.webdriverGetter = c.webdriverGetter := by
  unfold patchChrome at h
  split at h <;> simp at h <;> subst h <;> rfl

theorem patchChrome_permissions {c d : Ctx} (h : patchChrome c = some d) :
    d.permissions = c.permissions := by
  unfold patchChrome at h
  split at h <;> simp at h <;> subst h <;> rfl

theorem patchChrome_pluginsMock {c d : Ctx} (h : patchChrome c = some d) :
    d.pluginsMock = c.pluginsMock := by
  unfold patchChrome at h
  split at h <;> simp at h <;> subst h <;> rfl

theorem patchChrome_languagesGetter {c d : Ctx} (h : patchChrome c = some d) :
    d.languagesGetter = c.languagesGetter := by
  unfold patchChrome at h
  split at h <;> simp at h <;> subst h <;> rfl

theorem patchChrome_userAgentNative {c d : Ctx} (h : patchChrome c = some d) :
    d.userAgentNative = c.userAgentNative := by
  unfold patchChrome at h
  split at h <;> simp at h <;> subst h <;> rfl

theorem patchChrome_userAgentGetter {c d : Ctx} (h : patchChrome c = some d) :
    d.userAgentGetter = c.userAgentGetter := by
  unfold patchChrome at h
  split at h <;> simp at h <;> subst h <;> rfl

theorem patchChrome_documentElement {c d : Ctx} (h : patchChrome c = some d) :
    d.documentElement = c.documentElement := by
  unfold patchChrome at h
  split at h <;> simp at h <;> subst h <;> rfl

theorem patchChrome_windowOpen {c d : Ctx} (h : patchChrome c = some d) :
    d.windowOpen = c.windowOpen := by
  unfold patchChrome at h
  split at h <;> simp at h <;> subst h <;> rfl

theorem patchChrome_injectProp {c d : Ctx} (h : patchChrome c = some d) :
    d.injectProp = c.injectProp := by
  unfold patchChrome at h
  split at h <;> simp at h <;> subst h <;> rfl

theorem scrubDom_fingerprintPatched {c d : Ctx} (h : scrubDom c = some d) :
    d.fingerprintPatched = c.fingerprintPatched := by
  unfold scrubDom at h
  split at h
  · cases h
  · cases h; rfl

theorem scrubDom_webdriverGetter {c d : Ctx} (h : scrubDom c = some d) :
    d.webdriverGetter = c.webdriverGetter := by
  unfold scrubDom at h
  split at h
  · cases h
  · cases h; rfl

theorem scrubDom_permissions {c d : Ctx} (h : scrubDom c = some d) :
    d.permissions = c.permissions := by
  unfold scrubDom at h
  split at h
  · cases h
  · cases h; rfl

theorem scrubDom_chrome {c d : Ctx} (h : scrubDom c = some d) :
    d.chrome = c.chrome := by
  unfold scrubDom at h
  split at h
  · cases h
  · cases h; rfl

theorem scrubDom_pluginsMock {c d : Ctx} (h : scrubDom c = some d) :
    d.pluginsMock = c.pluginsMock := by
  unfold scrubDom at h
  split at h
  · cases h
  · cases h; rfl

theorem scrubDom_languagesGetter {c d : Ctx} (h : scrubDom c = some d) :
    d.languagesGetter = c.languagesGetter := by
  unfold scrubDom at h
  split at h
  · cases h
  · cases h; rfl

theorem scrubDom_userAgentNative {c d : Ctx} (h : scrubDom c = some d) :
    d.userAgentNative = c.userAgentNative := by
  unfold scrubDom at h
  split at h
  · cases h
  · cases h; rfl

theorem scrubDom_userAgentGetter {c d : Ctx} (h : scrubDom c = some d) :
    d.userAgentGetter = c.userAgentGetter := by
  unfold scrubDom at h
  split at h
  · cases h
  · cases h; rfl

theorem scrubDom_windowOpen {c d : Ctx} (h : scrubDom c = some d) :
    d.windowOpen = c.windowOpen := by
  unfold scrubDom at h
  split at h
  · cases h
  · cases h; rfl

theorem scrubDom_injectProp {c d : Ctx} (h : scrubDom c = some d) :
    d.injectProp = c.injectProp := by
  unfold scrubDom at h
  split at h
  · cases h
  · cases h; rfl

/-! ## The ways a run can go -/

/-- A run in an environment whose guard is set changes nothing. -/
theorem inject_of_guard (c : Ctx) (h : truthy c.fingerprintPatched = true) :
    inject c =
      { ctx := c, console := ["[Fingerprint] Already patched, skipping"],
        completion := .normal } := by
  unfold inject
  simp [h]

/-- A run that reaches `Object.assign` with a null namespace stops there. -/
theorem inject_of_threw (c : Ctx) (h : truthy c.fingerprintPatched = false)
    (hc : patchChrome (patchPermissions (patchWebdriver (setGuard c))) = none) :
    inject c =
      { ctx := patchPermissions (patchWebdriver (setGuard c)),
        console := ["[Fingerprint Patch] Starting full injection..."],
        completion := .threw "TypeError" } := by
  unfold inject
  simp [h, hc]

/-- A run that finds no root element stops at section 7. -/
theorem inject_of_rootless (c d : Ctx) (h : truthy c.fingerprintPatched = false)
    (hc : patchChrome (patchPermissions (patchWebdriver (setGuard c))) = some d)
    (hd : scrubDom (patchUserAgent (patchLanguages (patchPlugins d))) = none) :
    inject c =
      { ctx := patchUserAgent (patchLanguages (patchPlugins d)),
        console := ["[Fingerprint Patch] Starting full injection..."],
        completion := .threw "TypeError" } := by
  unfold inject
  simp [h, hc, hd]

/-- A run that gets past sections 3 and 7 executes every section. -/
theorem inject_of_some (c d e : Ctx) (h : truthy c.fingerprintPatched = false)
    (hc : patchChrome (patchPermissions (patchWebdriver (setGuard c))) = some d)
    (hd : scrubDom (patchUserAgent (patchLanguages (patchPlugins d))) = some e) :
    inject c =
      { ctx := installSelfCheck (hookWindowOpen e),
        console := ["[Fingerprint Patch] Starting full injection...",
                    "[Fingerprint Patch] Full injection completed successfully!"],
        completion := .normal } := by
  unfold inject
  simp [h, hc, hd]

/-- Section 3 throws exactly on a null namespace. -/
theorem patchChrome_eq_none (c : Ctx) : patchChrome c = none ↔ c.chrome = .null := by
  unfold patchChrome
  split <;> simp_all

/-- Section 7 throws exactly on a null root element. -/
theorem scrubDom_eq_none (c : Ctx) : scrubDom c = none ↔ c.documentElement = none := by
  unfold scrubDom
  split <;> simp_all

/-- The four ways a run can go. -/
theorem inject_cases (c : Ctx) :
    (truthy c.fingerprintPatched = true ∧
      inject c = { ctx := c, console := ["[Fingerprint] Already patched, skipping"],
                   completion := .normal }) ∨
    (truthy c.fingerprintPatched = false ∧ c.chrome = .null ∧
      inject c = { ctx := patchPermissions (patchWebdriver (setGuard c)),
                   console := ["[Fingerprint Patch] Starting full injection..."],
                   completion := .threw "TypeError" }) ∨
    (∃ d, truthy c.fingerprintPatched = false ∧
      patchChrome (patchPermissions (patchWebdriver (setGuard c))) = some d ∧
      c.documentElement = none ∧
      inject c = { ctx := patchUserAgent (patchLanguages (patchPlugins d)),
                   console := ["[Fingerprint Patch] Starting full injection..."],
                   completion := .threw "TypeError" }) ∨
    (∃ d e, truthy c.fingerprintPatched = false ∧
      patchChrome (patchPermissions (patchWebdriver (setGuard c))) = some d ∧
      scrubDom (patchUserAgent (patchLanguages (patchPlugins d))) = some e ∧
      c.chrome ≠ .null ∧ c.documentElement ≠ none ∧
      inject c = { ctx := installSelfCheck (hookWindowOpen e),
                   console := ["[Fingerprint Patch] Starting full injection...",
                               "[Fingerprint Patch] Full injection completed successfully!"],
                   completion := .normal }) := by
  by_cases h : truthy c.fingerprintPatched = true
  · exact Or.inl ⟨h, inject_of_guard c h⟩
  · have h' : truthy c.fingerprintPatched = false := by simpa using h
    rcases Option.eq_none_or_eq_some
      (patchChrome (patchPermissions (patchWebdriver (setGuard c)))) with hc | ⟨d, hc⟩
    · have hn := (patchChrome_eq_none _).1 hc
      simp only [patchPermissions_chrome, patchWebdriver_chrome, setGuard_chrome] at hn
      exact Or.inr (Or.inl ⟨h', hn, inject_of_threw c h' hc⟩)
    · have hn : c.chrome ≠ .null := by
        intro e
        have := (patchChrome_eq_none (patchPermissions (patchWebdriver (setGuard c)))).2
          (by simpa using e)
        rw [this] at hc
        cases hc
      have hroot : (patchUserAgent (patchLanguages (patchPlugins d))).documentElement
          = c.documentElement := by
        simp [patchChrome_documentElement hc]
      rcases Option.eq_none_or_eq_some
        (scrubDom (patchUserAgent (patchLanguages (patchPlugins d)))) with hd | ⟨e, hd⟩
      · have hr := (scrubDom_eq_none _).1 hd
        rw [hroot] at hr
        exact Or.inr (Or.inr (Or.inl ⟨d, h', hc, hr, inject_of_rootless c d h' hc hd⟩))
      · have hr : c.documentElement ≠ none := by
          intro e0
          have := (scrubDom_eq_none (patchUserAgent (patchLanguages (patchPlugins d)))).2
            (by rw [hroot]; exact e0)
          rw [this] at hd
          cases hd
        exact Or.inr (Or.inr (Or.inr ⟨d, e, h', hc, hd, hn, hr, inject_of_some c d e h' hc hd⟩))

/-- A run ends normally exactly when the guard was set already, or the
namespace is not null and the document has a root element. -/
theorem inject_completion (c : Ctx) :
    (inject c).completion = .normal ↔
      (truthy c.fingerprintPatched = true ∨ (c.chrome ≠ .null ∧ c.documentElement ≠ none)) := by
  rcases inject_cases c with ⟨h, e⟩ | ⟨h, hn, e⟩ | ⟨d, h, _, hr, e⟩ | ⟨d, e0, h, _, _, hn, hr, e⟩
  · rw [e]; simp [h]
  · rw [e]; simp [h, hn]
  · rw [e]; simp [h, hr]
  · rw [e]; simp [hn, hr]

/-- A run of an unpatched context that ended normally went through every
section. -/
theorem inject_done (c : Ctx) (hguard : truthy c.fingerprintPatched = false)
    (hdone : (inject c).completion = .normal) :
    ∃ d e, patchChrome (patchPermissions (patchWebdriver (setGuard c))) = some d ∧
      scrubDom (patchUserAgent (patchLanguages (patchPlugins d))) = some e ∧
      inject c = { ctx := installSelfCheck (hookWindowOpen e),
                   console := ["[Fingerprint Patch] Starting full injection...",
                               "[Fingerprint Patch] Full injection completed successfully!"],
                   completion := .normal } := by
  rcases inject_cases c with ⟨h, _⟩ | ⟨_, _, e⟩ | ⟨d, _, _, _, e⟩ | ⟨d, e0, _, hc, hd, _, _, e⟩
  · rw [hguard] at h; cases h
  · rw [e] at hdone; cases hdone
  · rw [e] at hdone; cases hdone
  · exact ⟨d, e0, hc, hd, e⟩

/-! ## The guard -/

/-- After a run the guard is set, whatever the environment was and however the
run ended. -/
theorem inject_sets_guard (c : Ctx) : truthy (inject c).ctx.fingerprintPatched = true := by
  rcases inject_cases c with ⟨h, e⟩ | ⟨_, _, e⟩ | ⟨d, _, hc, _, e⟩ | ⟨d, e0, _, hc, hd, _, _, e⟩
  · rw [e]; exact h
  · rw [e]; simp [setGuard, truthy]
  · rw [e]; simp [patchChrome_fingerprintPatched hc, setGuard, truthy]
  · rw [e]
    simp [scrubDom_fingerprintPatched hd, patchChrome_fingerprintPatched hc, setGuard, truthy]

/-- C1: running the routine a second time in the same context finds the guard
set and changes nothing: the environment after the second run is the one after
the first (so no statement that mutates was executed, the permission query and
the context-creation entry point are not wrapped again, no timer was added),
the run ends normally and only writes the skip notice to the console. -/
theorem inject_idempotent (c : Ctx) :
    truthy (inject c).ctx.fingerprintPatched = true ∧
    inject (inject c).ctx =
      { ctx := (inject c).ctx, console := ["[Fingerprint] Already patched, skipping"],
        completion := .normal } ∧
    (inject (inject c).ctx).ctx.mutations = (inject c).ctx.mutations ∧
    (inject (inject c).ctx).ctx.permissions = (inject c).ctx.permissions ∧
    (inject (inject c).ctx).ctx.windowOpen = (inject c).ctx.windowOpen ∧
    (inject (inject c).ctx).ctx.timers = (inject c).ctx.timers := by
  have h := inject_of_guard (inject c).ctx (inject_sets_guard c)
  refine ⟨inject_sets_guard c, h, ?_, ?_, ?_, ?_⟩ <;> rw [h]

/-! ## The permission query -/

/-- The permission object a run leaves is the one section 2 produced. -/
theorem inject_permissions (c : Ctx) (h : truthy c.fingerprintPatched = false) :
    (inject c).ctx.permissions = (patchPermissions c).permissions := by
  have e : (patchPermissions (patchWebdriver (setGuard c))).permissions
      = (patchPermissions c).permissions := by
    unfold patchPermissions
    simp only [patchWebdriver_permissions, setGuard_permissions]
    split
    · split <;> rfl
    · rfl
  rcases inject_cases c with ⟨h0, _⟩ | ⟨_, _, e1⟩ | ⟨d, _, hc, _, e1⟩ |
    ⟨d, e0, _, hc, hd, _, _, e1⟩
  · rw [h] at h0; cases h0
  · rw [e1]; exact e
  · rw [e1]; simp [patchChrome_permissions hc, e]
  · rw [e1]; simp [scrubDom_permissions hd, patchChrome_permissions hc, e]

/-- Section 2 wraps the query function when there is one, and only then. -/
theorem patchPermissions_installedQuery (c : Ctx) :
    installedQuery (patchPermissions c) = (installedQuery c).map QueryFn.patched := by
  unfold installedQuery patchPermissions
  split
  · rename_i p hp
    split
    · rename_i q hq
      simp [hp, hq]
    · rename_i hq
      simp [hp, hq]
  · rename_i hp
    simp [hp]

/-- The query function a run leaves. -/
theorem inject_installedQuery (c : Ctx) (hguard : truthy c.fingerprintPatched = false) :
    installedQuery (inject c).ctx = (installedQuery c).map QueryFn.patched := by
  rw [← patchPermissions_installedQuery]
  unfold installedQuery
  rw [inject_permissions c hguard]

theorem nameIs_of_name {parameters : JSVal} {literal : String}
    (h : getProp parameters "name" = .str literal) : nameIs parameters literal = true := by
  unfold nameIs
  rw [h]
  cases parameters <;> simp_all [getProp, truthy]

theorem nameIs_of_ne {parameters : JSVal} {literal : String}
    (h : getProp parameters "name" ≠ .str literal) : nameIs parameters literal = false := by
  unfold nameIs
  cases hn : getProp parameters "name" with
  | str s =>
    have : s ≠ literal := fun e => h (by rw [hn, e])
    simp [this]
  | _ => simp

/-- C2: after the routine ran in a context that has a permission-query
function, the function now installed answers a query whose name is "sandbox"
with a promise resolved to the object with state "granted" and onchange null,
one whose name is "notifications" with a promise resolved to the object with
state "prompt" and onchange null, and every other query (another name, no
name, a null or undefined argument) with exactly what the original function
gives for the same receiver and the same argument. -/
theorem patched_query_policy (hostQuery : JSVal → JSVal → Outcome) (c : Ctx)
    (originalPermissionsQuery : QueryFn)
    (hguard : truthy c.fingerprintPatched = false)
    (hquery : installedQuery c = some originalPermissionsQuery) :
    ∃ f, installedQuery (inject c).ctx = some f ∧
      ∀ this parameters : JSVal,
        (getProp parameters "name" = .str "sandbox" →
          callQuery hostQuery f this parameters
            = .returned (.promise (.obj [("state", .str "granted"), ("onchange", .null)]))) ∧
        (getProp parameters "name" = .str "notifications" →
          callQuery hostQuery f this parameters
            = .returned (.promise (.obj [("state", .str "prompt"), ("onchange", .null)]))) ∧
        (getProp parameters "name" ≠ .str "sandbox" →
          getProp parameters "name" ≠ .str "notifications" →
          callQuery hostQuery f this parameters =
            callQuery hostQuery originalPermissionsQuery this parameters) ∧
        (truthy parameters = false →
          callQuery hostQuery f this parameters =
            callQuery hostQuery originalPermissionsQuery this parameters) := by
  refine ⟨.patched originalPermissionsQuery, ?_, ?_⟩
  · rw [inject_installedQuery c hguard, hquery]
    rfl
  · intro this parameters
    refine ⟨?_, ?_, ?_, ?_⟩
    · intro h
      simp [callQuery, nameIs_of_name h, resolvedStatus]
    · intro h
      have h1 : getProp parameters "name" ≠ .str "sandbox" := by rw [h]; simp
      simp [callQuery, nameIs_of_name h, nameIs_of_ne h1, resolvedStatus]
    · intro h1 h2
      simp [callQuery, nameIs_of_ne h1, nameIs_of_ne h2]
    · intro h
      simp [callQuery, nameIs, h]

/-- The statement of `patched_query_policy` at the headless sample host, with a
host query that rejects everything. -/
theorem patched_query_policy_witness :
    truthy headlessHost.fingerprintPatched = false ∧
    installedQuery headlessHost = some .host ∧
    ∃ f, installedQuery (inject headlessHost).ctx = some f ∧
      ∀ this parameters : JSVal,
        (getProp parameters "name" = .str "sandbox" →
          callQuery denyingQuery f this parameters
            = .returned (.promise (.obj [("state", .str "granted"), ("onchange", .null)]))) ∧
        (getProp parameters "name" = .str "notifications" →
          callQuery denyingQuery f this parameters
            = .returned (.promise (.obj [("state", .str "prompt"), ("onchange", .null)]))) ∧
        (getProp parameters "name" ≠ .str "sandbox" →
          getProp parameters "name" ≠ .str "notifications" →
          callQuery denyingQuery f this parameters =
            callQuery denyingQuery .host this parameters) ∧
        (truthy parameters = false →
          callQuery denyingQuery f this parameters =
            callQuery denyingQuery .host this parameters) :=
  ⟨rfl, rfl, patched_query_policy denyingQuery headlessHost .host rfl rfl⟩

/-! ## The identity string -/

/-- The model of `includes` is the usual "occurs as a contiguous part". -/
theorem includes_iff (s p : List Char) : includes s p = true ↔ p <:+: s := by
  induction s with
  | nil => simp [includes, List.isEmpty_iff]
  | cons c s ih =>
    simp only [includes, Bool.or_eq_true, ih, List.infix_cons_iff, List.isPrefixOf_iff_prefix]

theorem includes_eq_false (s p : List Char) : includes s p = false ↔ ¬ p <:+: s := by
  rw [← includes_iff]; simp

/-- Skipping `k` covered characters is dropping them. -/
theorem replaceFrom_skip (k : Nat) (s : List Char) :
    replaceFrom k s = replaceFrom 0 (s.drop k) := by
  induction s generalizing k with
  | nil => cases k <;> simp [replaceFrom]
  | cons c s ih =>
    cases k with
    | zero => rfl
    | succ k => simp only [replaceFrom, List.drop_succ_cons]; exact ih k

/-- One step of the scan at a position that is not covered by a match. -/
theorem replaceFrom_zero_cons (c : Char) (s : List Char) :
    replaceFrom 0 (c :: s) =
      if headlessChrome <+: c :: s then
        desktopMarker ++ replaceFrom 0 ((c :: s).drop headlessChrome.length)
      else if x11Linux <+: c :: s then
        desktopMarker ++ replaceFrom 0 ((c :: s).drop x11Linux.length)
      else c :: replaceFrom 0 s := by
  simp only [replaceFrom, List.isPrefixOf_iff_prefix]
  rw [replaceFrom_skip (headlessChrome.length - 1), replaceFrom_skip (x11Linux.length - 1)]
  rfl

theorem headlessChrome_eq_cons : headlessChrome = 'H' :: headlessChrome.tail := rfl

theorem x11Linux_eq_cons : x11Linux = 'X' :: x11Linux.tail := rfl

/-- Inside a marker token, after its first character, there is no character
that starts a marker token: occurrences cannot overlap. -/
theorem marker_tail_clean (m : List Char) (hm : m = headlessChrome ∨ m = x11Linux) :
    ∀ x ∈ m.tail, x ≠ 'H' ∧ x ≠ 'X' := by
  rcases hm with rfl | rfl <;> decide

theorem marker_head (t : List Char) (ht : t = headlessChrome ∨ t = x11Linux) :
    ∃ y rest, t = y :: rest ∧ (y = 'H' ∨ y = 'X') := by
  rcases ht with rfl | rfl
  · exact ⟨'H', headlessChrome.tail, rfl, Or.inl rfl⟩
  · exact ⟨'X', x11Linux.tail, rfl, Or.inr rfl⟩

/-- A match at the current position emits the replacement and resumes after
the token. -/
theorem replaceFrom_marker (t b : List Char) (ht : t = headlessChrome ∨ t = x11Linux) :
    replaceFrom 0 (t ++ b) = desktopMarker ++ replaceFrom 0 b := by
  rcases ht with rfl | rfl
  · have e : headlessChrome ++ b = 'H' :: (headlessChrome.tail ++ b) := rfl
    rw [e, replaceFrom_zero_cons, ← e, if_pos (List.prefix_append _ _), List.drop_left]
  · have e : x11Linux ++ b = 'X' :: (x11Linux.tail ++ b) := rfl
    have hne : ¬ headlessChrome <+: 'X' :: (x11Linux.tail ++ b) := by
      rintro ⟨r, hr⟩
      rw [headlessChrome_eq_cons] at hr
      injection hr with h1 _
      exact absurd h1 (by decide)
    rw [e, replaceFrom_zero_cons, if_neg hne, ← e, if_pos (List.prefix_append _ _),
      List.drop_left]

/-- A position where no token starts emits its character. -/
theorem replaceFrom_plain (c : Char) (s : List Char) (h1 : ¬ headlessChrome <+: c :: s)
    (h2 : ¬ x11Linux <+: c :: s) : replaceFrom 0 (c :: s) = c :: replaceFrom 0 s := by
  rw [replaceFrom_zero_cons, if_neg h1, if_neg h2]

theorem hasMarker_eq_false (s : List Char) :
    hasMarker s = false ↔ ¬ headlessChrome <:+: s ∧ ¬ x11Linux <:+: s := by
  unfold hasMarker
  rw [Bool.or_eq_false_iff, includes_eq_false, includes_eq_false]

theorem hasMarker_cons (c : Char) (s : List Char) :
    hasMarker (c :: s) = false ↔
      (¬ headlessChrome <+: c :: s ∧ ¬ x11Linux <+: c :: s) ∧ hasMarker s = false := by
  simp only [hasMarker_eq_false, List.infix_cons_iff]
  tauto

/-- A string without a marker token is left as it is. -/
theorem replaceFrom_clean (s : List Char) (h : hasMarker s = false) : replaceFrom 0 s = s := by
  induction s with
  | nil => rfl
  | cons c s ih =>
    obtain ⟨⟨h1, h2⟩, h3⟩ := (hasMarker_cons c s).1 h
    rw [replaceFrom_plain c s h1 h2, ih h3]

/-- A marker token that starts before an occurrence of a marker token ends
before it. -/
theorem marker_before_occurrence (m t : List Char) (hm : m = headlessChrome ∨ m = x11Linux)
    (ht : t = headlessChrome ∨ t = x11Linux) (c : Char) (a b : List Char)
    (h : m <+: c :: a ++ t ++ b) : m <+: c :: a := by
  have h2 : c :: a <+: c :: a ++ t ++ b := by
    rw [List.append_assoc]; exact List.prefix_append _ _
  rcases List.prefix_or_prefix_of_prefix h h2 with h3 | ⟨r, hr⟩
  · exact h3
  · cases r with
    | nil => rw [← hr]; simp
    | cons x r =>
      exfalso
      have hx : x ∈ m.tail := by rw [← hr]; simp
      have h4 : c :: a ++ x :: r <+: c :: a ++ (t ++ b) := by
        rw [hr, ← List.append_assoc]; exact h
      have h5 : x :: r <+: t ++ b := (List.prefix_append_right_inj _).1 h4
      obtain ⟨y, rest, rfl, hy⟩ := marker_head t ht
      obtain ⟨q, hq⟩ := h5
      injection hq with hxy _
      have := marker_tail_clean m hm x hx
      rcases hy with rfl | rfl
      · exact this.1 hxy
      · exact this.2 hxy

/-- The scan of a string cut at an occurrence that has no marker before it. -/
theorem replaceFrom_occurrence (a t b : List Char) (ha : hasMarker a = false)
    (ht : t = headlessChrome ∨ t = x11Linux) :
    replaceFrom 0 (a ++ t ++ b) = a ++ desktopMarker ++ replaceFrom 0 b := by
  induction a with
  | nil => simpa using replaceFrom_marker t b ht
  | cons c a ih =>
    obtain ⟨⟨h1, h2⟩, h3⟩ := (hasMarker_cons c a).1 ha
    have e : c :: a ++ t ++ b = c :: (a ++ t ++ b) := rfl
    have g1 : ¬ headlessChrome <+: c :: (a ++ t ++ b) := fun h =>
      h1 (marker_before_occurrence _ t (Or.inl rfl) ht c a b h)
    have g2 : ¬ x11Linux <+: c :: (a ++ t ++ b) := fun h =>
      h2 (marker_before_occurrence _ t (Or.inr rfl) ht c a b h)
    rw [e, replaceFrom_plain _ _ g1 g2, ih h3]
    rfl

theorem noMarker_iff (s : List Char) :
    (∀ m ∈ [headlessChrome, x11Linux], ¬ m <:+: s) ↔ hasMarker s = false := by
  rw [hasMarker_eq_false]
  simp

theorem mem_markers (t : List Char) :
    t ∈ [headlessChrome, x11Linux] ↔ (t = headlessChrome ∨ t = x11Linux) := by
  simp

/-- A position where no token starts can be put in front of a rewritten string. -/
theorem MarkersReplacedBy.cons {s out : List Char} (c : Char)
    (h1 : ¬ headlessChrome <+: c :: s) (h2 : ¬ x11Linux <+: c :: s)
    (h : MarkersReplacedBy [headlessChrome, x11Linux] desktopMarker s out) :
    MarkersReplacedBy [headlessChrome, x11Linux] desktopMarker (c :: s) (c :: out) := by
  cases h with
  | clean _ hs =>
    exact .clean _ ((noMarker_iff _).2 ((hasMarker_cons c s).2 ⟨⟨h1, h2⟩, (noMarker_iff _).1 hs⟩))
  | occurrence a t b out ha ht hb =>
    have hca : hasMarker (c :: a) = false := by
      refine (hasMarker_cons c a).2 ⟨⟨fun h => h1 ?_, fun h => h2 ?_⟩, (noMarker_iff _).1 ha⟩
      · exact h.trans (by rw [List.append_assoc]; exact List.prefix_append _ _)
      · exact h.trans (by rw [List.append_assoc]; exact List.prefix_append _ _)
    exact .occurrence (c :: a) t b out ((noMarker_iff _).2 hca) ht hb

/-- The scan produces a string that is the original with every marker
occurrence replaced. -/
theorem markersReplacedBy_replaceFrom (n : Nat) :
    ∀ s : List Char, s.length ≤ n →
      MarkersReplacedBy [headlessChrome, x11Linux] desktopMarker s (replaceFrom 0 s) := by
  induction n with
  | zero =>
    intro s hs
    have : s = [] := List.length_eq_zero.1 (Nat.le_zero.1 hs)
    subst this
    exact .clean [] ((noMarker_iff _).2 (by decide))
  | succ n ih =>
    intro s hs
    cases s with
    | nil => exact .clean [] ((noMarker_iff _).2 (by decide))
    | cons c s =>
      by_cases h1 : headlessChrome <+: c :: s
      · obtain ⟨b, hb⟩ := h1
        rw [← hb, replaceFrom_marker _ b (Or.inl rfl)]
        have hlen : b.length ≤ n := by
          have := congrArg List.length hb
          simp [headlessChrome] at this
          simp at hs
          omega
        simpa using MarkersReplacedBy.occurrence [] headlessChrome b _
          ((noMarker_iff _).2 (by decide)) ((mem_markers _).2 (Or.inl rfl)) (ih b hlen)
      · by_cases h2 : x11Linux <+: c :: s
        · obtain ⟨b, hb⟩ := h2
          rw [← hb, replaceFrom_marker _ b (Or.inr rfl)]
          have hlen : b.length ≤ n := by
            have := congrArg List.length hb
            simp [x11Linux] at this
            simp at hs
            omega
          simpa using MarkersReplacedBy.occurrence [] x11Linux b _
            ((noMarker_iff _).2 (by decide)) ((mem_markers _).2 (Or.inr rfl)) (ih b hlen)
        · rw [replaceFrom_plain c s h1 h2]
          exact MarkersReplacedBy.cons c h1 h2 (ih s (by simp at hs; omega))

/-- Only the scan's result is the original with every marker occurrence
replaced. -/
theorem MarkersReplacedBy.unique {s out : List Char}
    (h : MarkersReplacedBy [headlessChrome, x11Linux] desktopMarker s out) :
    out = replaceFrom 0 s := by
  induction h with
  | clean s hs => exact (replaceFrom_clean s ((noMarker_iff _).1 hs)).symm
  | occurrence a t b out ha ht _ ih =>
    rw [replaceFrom_occurrence a t b ((noMarker_iff _).1 ha) ((mem_markers _).1 ht), ih]

/-- A read of the identity string only depends on the accessor and on the
host's own value. -/
theorem readUserAgent_congr {c d : Ctx} (h1 : d.userAgentGetter = c.userAgentGetter)
    (h2 : d.userAgentNative = c.userAgentNative) : readUserAgent d = readUserAgent c := by
  unfold readUserAgent
  rw [h1, h2]

/-- Section 6 makes every later read the rewritten original, also when it
defines no accessor. -/
theorem patchUserAgent_read (c : Ctx) :
    readUserAgent (patchUserAgent c) = replaceMarkers (readUserAgent c) := by
  simp only [patchUserAgent]
  split
  · rfl
  · rename_i h
    simp only [Bool.or_eq_true, not_or, Bool.not_eq_true] at h
    have hclean : hasMarker (readUserAgent c) = false := by
      rw [hasMarker_eq_false]
      refine ⟨fun hin => ?_, (includes_eq_false _ _).1 h.2⟩
      have hpre : "Headless".toList <:+: headlessChrome :=
        (show "Headless".toList <+: headlessChrome from ⟨"Chrome".toList, rfl⟩).isInfix
      exact (includes_eq_false _ _).1 h.1 (hpre.trans hin)
    exact (replaceFrom_clean _ hclean).symm

/-- After a completed run, a read of the identity string gives the rewritten
original. -/
theorem inject_readUserAgent (c : Ctx) (hguard : truthy c.fingerprintPatched = false)
    (hdone : (inject c).completion = .normal) :
    readUserAgent (inject c).ctx = replaceMarkers (readUserAgent c) := by
  obtain ⟨d, e, hc, hd, hrun⟩ := inject_done c hguard hdone
  rw [hrun]
  have e1 : readUserAgent (installSelfCheck (hookWindowOpen e))
      = readUserAgent (patchUserAgent (patchLanguages (patchPlugins d))) :=
    readUserAgent_congr (by simp [scrubDom_userAgentGetter hd])
      (by simp [scrubDom_userAgentNative hd])
  have e2 : readUserAgent (patchLanguages (patchPlugins d)) = readUserAgent c :=
    readUserAgent_congr (by simp [patchChrome_userAgentGetter hc])
      (by simp [patchChrome_userAgentNative hc])
  rw [e1, patchUserAgent_read, e2]

/-- C3: after the routine ran to its end in an unpatched context, the identity
string read is the original with every occurrence of "HeadlessChrome" and of
"X11; Linux" replaced by "Windows NT 10.0; Win64; x64" and every other
character in place: it is what the accessor's replacement computes, it stands
to the original in the relation `MarkersReplacedBy` for these two markers and
this replacement, it is the only string that does, and it is the original
itself when that contains neither marker. -/
theorem userAgent_markers_replaced (c : Ctx) (hguard : truthy c.fingerprintPatched = false)
    (hdone : (inject c).completion = .normal) :
    readUserAgent (inject c).ctx = replaceMarkers (readUserAgent c) ∧
    MarkersReplacedBy ["HeadlessChrome".toList, "X11; Linux".toList]
      "Windows NT 10.0; Win64; x64".toList (readUserAgent c) (readUserAgent (inject c).ctx) ∧
    (∀ out,
      MarkersReplacedBy ["HeadlessChrome".toList, "X11; Linux".toList]
        "Windows NT 10.0; Win64; x64".toList (readUserAgent c) out →
      out = readUserAgent (inject c).ctx) ∧
    (¬ "HeadlessChrome".toList <:+: readUserAgent c →
      ¬ "X11; Linux".toList <:+: readUserAgent c →
      readUserAgent (inject c).ctx = readUserAgent c) := by
  have h := inject_readUserAgent c hguard hdone
  refine ⟨h, ?_, ?_, ?_⟩
  · rw [h]; exact markersReplacedBy_replaceFrom _ _ (Nat.le_refl _)
  · intro out hout
    rw [h]
    exact MarkersReplacedBy.unique hout
  · intro h1 h2
    rw [h]
    exact replaceFrom_clean _ ((hasMarker_eq_false _).2 ⟨h1, h2⟩)

/-- The statement of `userAgent_markers_replaced` at the headless sample host,
whose identity string contains both markers, with the string that is read. -/
theorem userAgent_markers_replaced_witness :
    truthy headlessHost.fingerprintPatched = false ∧
    (inject headlessHost).completion = .normal ∧
    readUserAgent (inject headlessHost).ctx =
      ("Mozilla/5.0 (Windows NT 10.0; Win64; x64 x86_64) AppleWebKit/537.36 " ++
        "Windows NT 10.0; Win64; x64/120.0.0.0 Safari/537.36").toList ∧
    MarkersReplacedBy ["HeadlessChrome".toList, "X11; Linux".toList]
      "Windows NT 10.0; Win64; x64".toList (readUserAgent headlessHost)
      (readUserAgent (inject headlessHost).ctx) :=
  ⟨rfl, rfl, by decide, (userAgent_markers_replaced headlessHost rfl rfl).2.1⟩

/-! ## Page scripts -/

theorem updateAt_length {α : Type} (l : List α) (i : Nat) (f : α → α) :
    (updateAt l i f).length = l.length := by
  induction l generalizing i with
  | nil => rfl
  | cons a l ih => cases i <;> simp [updateAt, ih]

/-- A property of pages that every operation keeps holds after every script. -/
theorem Page.run_induction (P : Page → Prop) (hstep : ∀ p op, P p → P (p.step op))
    (ops : List PageOp) : ∀ p : Page, P p → P (p.run ops) := by
  induction ops with
  | nil => intro p hp; exact hp
  | cons op ops ih => intro p hp; exact ih (p.step op) (hstep p op hp)

/-- An operation that is not an assignment to an entry leaves the environment
as it is. -/
theorem Page.step_ctx (p : Page) (op : PageOp) (h : op.isEntryWrite = false) :
    (p.step op).ctx = p.ctx := by
  cases op <;> first | rfl | cases h

/-- A script without assignments to entries leaves the environment as it is. -/
theorem Page.run_ctx (ops : List PageOp) (h : ∀ op ∈ ops, op.isEntryWrite = false) :
    ∀ p : Page, (p.run ops).ctx = p.ctx := by
  induction ops with
  | nil => intro p; rfl
  | cons op ops ih =>
    intro p
    have h1 := h op (List.mem_cons_self _ _)
    have h2 : ∀ o ∈ ops, o.isEntryWrite = false := fun o ho => h o (List.mem_cons_of_mem _ ho)
    show ((p.step op).run ops).ctx = p.ctx
    rw [ih h2, Page.step_ctx p op h1]

/-- No operation changes whether the locale accessor is defined. -/
theorem Page.step_languagesGetter (p : Page) (op : PageOp) :
    (p.step op).ctx.languagesGetter = p.ctx.languagesGetter := by
  cases op <;> try rfl
  simp only [Page.step]
  split
  · split <;> rfl
  · rfl

/-- Every operation keeps the accessor over an array of the same length. -/
theorem Page.step_pluginsMock (p : Page) (op : PageOp) (n : Nat)
    (h : ∃ entries, p.ctx.pluginsMock = some entries ∧ entries.length = n) :
    ∃ entries, (p.step op).ctx.pluginsMock = some entries ∧ entries.length = n := by
  obtain ⟨entries, he, hn⟩ := h
  cases op <;> try exact ⟨entries, he, hn⟩
  rename_i entry field v
  simp only [Page.step, he]
  split
  · exact ⟨_, rfl, by rw [updateAt_length]; exact hn⟩
  · exact ⟨entries, he, hn⟩

/-- After a completed run the plugin accessor is defined over the catalog. -/
theorem inject_pluginsMock (c : Ctx) (hguard : truthy c.fingerprintPatched = false)
    (hdone : (inject c).completion = .normal) :
    (inject c).ctx.pluginsMock = some mockPlugins := by
  obtain ⟨d, e, hc, hd, hrun⟩ := inject_done c hguard hdone
  rw [hrun]
  simp [scrubDom_pluginsMock hd, patchPlugins]

/-- After a completed run the locale accessor is defined. -/
theorem inject_languagesGetter (c : Ctx) (hguard : truthy c.fingerprintPatched = false)
    (hdone : (inject c).completion = .normal) :
    (inject c).ctx.languagesGetter = true := by
  obtain ⟨d, e, hc, hd, hrun⟩ := inject_done c hguard hdone
  rw [hrun]
  simp [scrubDom_languagesGetter hd, patchLanguages]

/-- After a completed run the automation flag is overridden. -/
theorem inject_webdriverGetter (c : Ctx) (hguard : truthy c.fingerprintPatched = false)
    (hdone : (inject c).completion = .normal) :
    (inject c).ctx.webdriverGetter = some false := by
  obtain ⟨d, e, hc, hd, hrun⟩ := inject_done c hguard hdone
  rw [hrun]
  simp [scrubDom_webdriverGetter hd, patchChrome_webdriverGetter hc, patchWebdriver]

/-- After a completed run and any script, the accessor is defined over an
array of three entries. -/
theorem pluginsMock_after_script (c : Ctx) (hguard : truthy c.fingerprintPatched = false)
    (hdone : (inject c).completion = .normal) (ops : List PageOp) :
    ∃ entries, ((Page.ofCtx (inject c).ctx).run ops).ctx.pluginsMock = some entries ∧
      entries.length = 3 ∧ pluginEntries ((Page.ofCtx (inject c).ctx).run ops).ctx = entries := by
  obtain ⟨entries, he, hlen⟩ :=
    Page.run_induction
      (fun p => ∃ entries, p.ctx.pluginsMock = some entries ∧ entries.length = 3)
      (fun p op hp => Page.step_pluginsMock p op 3 hp) ops (Page.ofCtx (inject c).ctx)
      ⟨mockPlugins, inject_pluginsMock c hguard hdone, rfl⟩
  exact ⟨entries, he, hlen, by simp [pluginEntries, he]⟩

/-- After a completed run and a script without assignments to entries, the
array behind the plugin list is the catalog. -/
theorem pluginEntries_after_reads (c : Ctx) (hguard : truthy c.fingerprintPatched = false)
    (hdone : (inject c).completion = .normal) (ops : List PageOp)
    (hops : ∀ op ∈ ops, op.isEntryWrite = false) :
    pluginEntries ((Page.ofCtx (inject c).ctx).run ops).ctx = mockPlugins := by
  rw [Page.run_ctx ops hops]
  unfold pluginEntries
  show (match (inject c).ctx.pluginsMock with
    | some entries => entries
    | none => (inject c).ctx.pluginsNative) = mockPlugins
  rw [inject_pluginsMock c hguard hdone]

/-- A generator that has not run yet, driven over an array of three entries,
yields them in order and then reports the end. -/
theorem collect_three (entries : List Plugin) (hlen : entries.length = 3) (fuel : Nat)
    (h : 4 ≤ fuel) : collect entries fuel PluginIter.start = (entries, true) := by
  obtain ⟨k, rfl⟩ : ∃ k, fuel = k + 4 := ⟨fuel - 4, by omega⟩
  match entries, hlen with
  | [a, b, c], _ => rfl

/-- Positional lookup outside 0..2 gives null on an array of three entries. -/
theorem item_out_of_range (entries : List Plugin) (hlen : entries.length = 3) (i : Int)
    (hi : i < 0 ∨ 3 ≤ i) : item entries i = none := by
  unfold item
  rcases hi with hi | hi
  · rw [if_neg (by omega)]
  · rw [if_pos (by omega)]
    exact List.get?_eq_none.2 (by omega)

/-- The claim C4 fails as stated: after a page script assigns to the name of
the entry it got from `namedItem("Native Client")`, a later read has no entry
under that name, positional lookup at 2 returns the renamed entry, and an
enumeration yields it in third place. -/
theorem renamed_entry_breaks_catalog_lookup :
    namedItem (pluginEntries ((Page.ofCtx (inject headlessHost).ctx).run
      [.assignField (.byName "Native Client") .name "Renamed"]).ctx) "Native Client" = none ∧
    item (pluginEntries ((Page.ofCtx (inject headlessHost).ctx).run
      [.assignField (.byName "Native Client") .name "Renamed"]).ctx) 2
      = some ⟨"Renamed", "internal-nacl-plugin", ""⟩ ∧
    collect (pluginEntries ((Page.ofCtx (inject headlessHost).ctx).run
      [.assignField (.byName "Native Client") .name "Renamed"]).ctx) 4 PluginIter.start
      = ([⟨"Chrome PDF Plugin", "internal-pdf-viewer", "Portable Document Format"⟩,
          ⟨"Chrome PDF Viewer", "mhjfbmdgcfjbbpaeojofohoefgiehjai", ""⟩,
          ⟨"Renamed", "internal-nacl-plugin", ""⟩], true) := by
  decide

/-- C4, amended: after the routine ran to its end, and whatever a page script
did before, the plugin list has count 3, positional lookup gives null at
every integer outside 0..2 (index 5 included), an enumeration started now is a
new generator, and it yields the three current entries in order and then ends.
When the script made no assignment to a field of an entry, the list agrees with
the catalog: positional lookup at 0, 1, 2 gives the PDF plugin, the PDF viewer
and the native client entry, name lookup gives the entry of that name ("Native
Client" gives the third) and null for every other name, and the enumeration
yields exactly these three entries in this order. -/
theorem plugins_agree_with_catalog (c : Ctx) (hguard : truthy c.fingerprintPatched = false)
    (hdone : (inject c).completion = .normal) (ops : List PageOp) :
    pluginsLength ((Page.ofCtx (inject c).ctx).run ops).ctx = 3 ∧
    (∀ i : Int, i < 0 ∨ 3 ≤ i →
      item (pluginEntries ((Page.ofCtx (inject c).ctx).run ops).ctx) i = none) ∧
    item (pluginEntries ((Page.ofCtx (inject c).ctx).run ops).ctx) 5 = none ∧
    (((Page.ofCtx (inject c).ctx).run ops).step .startIteration).iterators
      = ((Page.ofCtx (inject c).ctx).run ops).iterators ++ [{ i := 0, finished := false }] ∧
    (∀ fuel, 4 ≤ fuel →
      collect (pluginEntries ((Page.ofCtx (inject c).ctx).run ops).ctx) fuel
          { i := 0, finished := false }
        = (pluginEntries ((Page.ofCtx (inject c).ctx).run ops).ctx, true)) ∧
    ((∀ op ∈ ops, op.isEntryWrite = false) →
      item (pluginEntries ((Page.ofCtx (inject c).ctx).run ops).ctx) 0
        = some ⟨"Chrome PDF Plugin", "internal-pdf-viewer", "Portable Document Format"⟩ ∧
      item (pluginEntries ((Page.ofCtx (inject c).ctx).run ops).ctx) 1
        = some ⟨"Chrome PDF Viewer", "mhjfbmdgcfjbbpaeojofohoefgiehjai", ""⟩ ∧
      item (pluginEntries ((Page.ofCtx (inject c).ctx).run ops).ctx) 2
        = some ⟨"Native Client", "internal-nacl-plugin", ""⟩ ∧
      namedItem (pluginEntries ((Page.ofCtx (inject c).ctx).run ops).ctx) "Chrome PDF Plugin"
        = some ⟨"Chrome PDF Plugin", "internal-pdf-viewer", "Portable Document Format"⟩ ∧
      namedItem (pluginEntries ((Page.ofCtx (inject c).ctx).run ops).ctx) "Chrome PDF Viewer"
        = some ⟨"Chrome PDF Viewer", "mhjfbmdgcfjbbpaeojofohoefgiehjai", ""⟩ ∧
      namedItem (pluginEntries ((Page.ofCtx (inject c).ctx).run ops).ctx) "Native Client"
        = some ⟨"Native Client", "internal-nacl-plugin", ""⟩ ∧
      (∀ n : String, n ≠ "Chrome PDF Plugin" → n ≠ "Chrome PDF Viewer" → n ≠ "Native Client" →
        namedItem (pluginEntries ((Page.ofCtx (inject c).ctx).run ops).ctx) n = none) ∧
      (∀ fuel, 4 ≤ fuel →
        collect (pluginEntries ((Page.ofCtx (inject c).ctx).run ops).ctx) fuel
            { i := 0, finished := false }
          = ([⟨"Chrome PDF Plugin", "internal-pdf-viewer", "Portable Document Format"⟩,
              ⟨"Chrome PDF Viewer", "mhjfbmdgcfjbbpaeojofohoefgiehjai", ""⟩,
              ⟨"Native Client", "internal-nacl-plugin", ""⟩], true))) := by
  obtain ⟨entries, _, hlen, hE⟩ := pluginsMock_after_script c hguard hdone ops
  refine ⟨?_, ?_, ?_, rfl, ?_, ?_⟩
  · unfold pluginsLength
    rw [hE, hlen]
  · intro i hi
    rw [hE]
    exact item_out_of_range entries hlen i hi
  · rw [hE]
    exact item_out_of_range entries hlen 5 (Or.inr (by decide))
  · intro fuel hfuel
    rw [hE]
    exact collect_three entries hlen fuel hfuel
  · intro hops
    rw [pluginEntries_after_reads c hguard hdone ops hops]
    refine ⟨rfl, rfl, rfl, by decide, by decide, by decide, ?_, ?_⟩
    · intro n h1 h2 h3
      unfold namedItem
      rw [List.find?_eq_none]
      intro e he
      simp only [mockPlugins, List.mem_cons, List.mem_singleton, List.not_mem_nil,
        or_false] at he
      rcases he with rfl | rfl | rfl
      · simpa using Ne.symm h1
      · simpa using Ne.symm h2
      · simpa using Ne.symm h3
    · intro fuel hfuel
      exact collect_three mockPlugins rfl fuel hfuel

/-- The statement of `plugins_agree_with_catalog` at the headless sample host,
after a script that read the list twice and ran one enumeration half way. -/
theorem plugins_agree_with_catalog_witness :
    truthy headlessHost.fingerprintPatched = false ∧
    (inject headlessHost).completion = .normal ∧
    (∀ op ∈ [PageOp.readPlugins, PageOp.startIteration, PageOp.next 0, PageOp.readPlugins,
        PageOp.setLength 0 7, PageOp.refresh],
      op.isEntryWrite = false) ∧
    namedItem (pluginEntries ((Page.ofCtx (inject headlessHost).ctx).run
      [.readPlugins, .startIteration, .next 0, .readPlugins, .setLength 0 7, .refresh]).ctx)
      "Native Client" = some ⟨"Native Client", "internal-nacl-plugin", ""⟩ :=
  ⟨rfl, rfl, by decide,
    ((plugins_agree_with_catalog headlessHost rfl rfl
      [.readPlugins, .startIteration, .next 0, .readPlugins, .setLength 0 7, .refresh]).2.2.2.2.2
      (by decide)).2.2.2.2.2.1⟩

/-- Name lookup returns the first entry of that name. -/
theorem firstNamed_of_namedItem (entries : List Plugin) (n : String) (e : Plugin)
    (h : namedItem entries n = some e) :
    ∃ k, firstNamed entries n = some k ∧ entries.get? k = some e ∧
      ∀ j < k, ∀ q, entries.get? j = some q → q.name ≠ n := by
  induction entries with
  | nil => simp [namedItem] at h
  | cons a rest ih =>
    unfold namedItem at h ih
    by_cases ha : a.name = n
    · have : a = e := by simpa [List.find?_cons, ha] using h
      subst this
      exact ⟨0, by simp [firstNamed, ha], rfl, fun j hj => absurd hj (Nat.not_lt_zero j)⟩
    · have h' : rest.find? (fun q => q.name == n) = some e := by
        simpa [List.find?_cons, ha] using h
      obtain ⟨k, hk, hget, hmin⟩ := ih h'
      refine ⟨k + 1, by simp [firstNamed, ha, hk], by simpa using hget, ?_⟩
      intro j hj q hq
      cases j with
      | zero =>
        have : a = q := by simpa using hq
        subst this
        exact ha
      | succ j => exact hmin j (by omega) q (by simpa using hq)

/-- Name lookup returns null exactly when no entry has that name. -/
theorem firstNamed_of_namedItem_none (entries : List Plugin) (n : String)
    (h : namedItem entries n = none) : firstNamed entries n = none := by
  induction entries with
  | nil => rfl
  | cons a rest ih =>
    unfold namedItem at h ih
    by_cases ha : a.name = n
    · simp [List.find?_cons, ha] at h
    · have h' : rest.find? (fun q => q.name == n) = none := by
        simpa [List.find?_cons, ha] using h
      simp [firstNamed, ha, ih h']

/-- An assignment through a lookup that returns an entry changes that entry;
reads and operations on list objects afterwards do not change it again. -/
theorem Page.assign_then_reads (p : Page) (entries : List Plugin)
    (he : p.ctx.pluginsMock = some entries) (via : Lookup) (field : Field) (v : String)
    (later : List PageOp) (hlater : ∀ op ∈ later, op.isEntryWrite = false) :
    pluginEntries (((p.step (.assignField via field v)).run later).ctx)
      = match via.resolve entries with
        | some k => updateAt entries k (fun e => e.assign field v)
        | none => entries := by
  rw [Page.run_ctx later hlater]
  simp only [Page.step, he]
  split <;> simp [pluginEntries, he]

theorem resolve_byIndex (entries : List Plugin) (i : Int) :
    (∀ e, item entries i = some e →
      Lookup.resolve entries (.byIndex i) = some i.toNat ∧ entries.get? i.toNat = some e) ∧
    (item entries i = none → Lookup.resolve entries (.byIndex i) = none) := by
  unfold item Lookup.resolve
  by_cases h0 : 0 ≤ i
  · simp only [h0, if_true, true_and]
    constructor
    · intro e he
      have hlt : i.toNat < entries.length := by
        by_contra hge
        rw [List.get?_eq_none.2 (by omega)] at he
        cases he
      exact ⟨by simp [hlt], he⟩
    · intro hn
      have : ¬ i.toNat < entries.length := by
        intro hlt
        rw [List.get?_eq_get hlt] at hn
        cases hn
      simp [this]
  · simp [h0]

theorem resolve_byIteration (entries : List Plugin) (hlen : entries.length = 3) (j : Nat) :
    (∀ e, (collect entries 4 PluginIter.start).1.get? j = some e →
      Lookup.resolve entries (.byIteration j) = some j ∧ entries.get? j = some e) ∧
    ((collect entries 4 PluginIter.start).1.get? j = none →
      Lookup.resolve entries (.byIteration j) = none) := by
  rw [collect_three entries hlen 4 (Nat.le_refl 4)]
  show (∀ e, entries.get? j = some e → _) ∧ (entries.get? j = none → _)
  unfold Lookup.resolve
  constructor
  · intro e he
    have hlt : j < entries.length := by
      by_contra hge
      rw [List.get?_eq_none.2 (by omega)] at he
      cases he
    exact ⟨by simp [hlt], he⟩
  · intro hn
    have : ¬ j < entries.length := by
      intro hlt
      rw [List.get?_eq_get hlt] at hn
      cases hn
    simp [this]

theorem updateAt_get? {α : Type} (l : List α) (k : Nat) (f : α → α) (e : α)
    (h : l.get? k = some e) :
    (updateAt l k f).get? k = some (f e) ∧ ∀ j, j ≠ k → (updateAt l k f).get? j = l.get? j := by
  induction l generalizing k with
  | nil => cases h
  | cons a l ih =>
    cases k with
    | zero =>
      have : a = e := by simpa using h
      subst this
      refine ⟨rfl, fun j hj => ?_⟩
      cases j with
      | zero => exact absurd rfl hj
      | succ j => rfl
    | succ k =>
      obtain ⟨h1, h2⟩ := ih k (by simpa using h)
      refine ⟨by simpa [updateAt] using h1, fun j hj => ?_⟩
      cases j with
      | zero => rfl
      | succ j => simpa [updateAt] using h2 j (by omega)

/-- The claim C8 fails as stated: the entries are the shared objects of
`mockPlugins`, so after a page script assigns to the name of the entry it got
from `item(0)`, a later read still has count 3 but reports the new name at
index 0, is no longer the catalog, and finds no entry under the old name. -/
theorem plugin_entry_assignment_visible :
    pluginsLength ((Page.ofCtx (inject headlessHost).ctx).run
      [.readPlugins, .assignField (.byIndex 0) .name "Spoofed", .readPlugins]).ctx = 3 ∧
    item (pluginEntries ((Page.ofCtx (inject headlessHost).ctx).run
      [.readPlugins, .assignField (.byIndex 0) .name "Spoofed", .readPlugins]).ctx) 0
      = some ⟨"Spoofed", "internal-pdf-viewer", "Portable Document Format"⟩ ∧
    pluginEntries ((Page.ofCtx (inject headlessHost).ctx).run
      [.readPlugins, .assignField (.byIndex 0) .name "Spoofed", .readPlugins]).ctx
        ≠ [⟨"Chrome PDF Plugin", "internal-pdf-viewer", "Portable Document Format"⟩,
           ⟨"Chrome PDF Viewer", "mhjfbmdgcfjbbpaeojofohoefgiehjai", ""⟩,
           ⟨"Native Client", "internal-nacl-plugin", ""⟩] ∧
    namedItem (pluginEntries ((Page.ofCtx (inject headlessHost).ctx).run
      [.readPlugins, .assignField (.byIndex 0) .name "Spoofed", .readPlugins]).ctx)
        "Chrome PDF Plugin" = none := by
  decide

/-- An assignment at a position that holds an entry changes that entry only. -/
theorem Page.assign_at (p : Page) (entries : List Plugin)
    (he : p.ctx.pluginsMock = some entries) (hlen : entries.length = 3)
    (via : Lookup) (field : Field) (v : String) (later : List PageOp)
    (hlater : ∀ op ∈ later, op.isEntryWrite = false) (k : Nat) (e : Plugin)
    (hres : via.resolve entries = some k) (hget : entries.get? k = some e)
    (after : List Plugin)
    (hafter : after = pluginEntries (((p.step (.assignField via field v)).run later).ctx)) :
    after.length = 3 ∧ after.get? k = some (e.assign field v) ∧
      ∀ j, j ≠ k → after.get? j = entries.get? j := by
  rw [Page.assign_then_reads p entries he via field v later hlater, hres] at hafter
  subst hafter
  obtain ⟨h1, h2⟩ := updateAt_get? entries k (fun x => x.assign field v) e hget
  exact ⟨by rw [updateAt_length]; exact hlen, h1, h2⟩

/-- An assignment through a lookup that returned null changes nothing. -/
theorem Page.assign_nowhere (p : Page) (entries : List Plugin)
    (he : p.ctx.pluginsMock = some entries)
    (via : Lookup) (field : Field) (v : String) (later : List PageOp)
    (hlater : ∀ op ∈ later, op.isEntryWrite = false)
    (hres : via.resolve entries = none) :
    pluginEntries (((p.step (.assignField via field v)).run later).ctx) = entries := by
  rw [Page.assign_then_reads p entries he via field v later hlater, hres]

/-- C8, amended: after the routine ran to its end, and whatever a page script
did with the plugin list and the values it returned, every later read reports
count 3.  Operations on the list objects themselves (reads, refresh,
enumerations, assignments to a list object's own length) leave the three
entries with their original name, filename and description.  The entries that
positional lookup, name lookup and iteration return are the shared objects of
the catalog: an assignment to the name, filename or description of such an
entry sets exactly that field of exactly that entry (for name lookup the first
entry of that name) in every later read, until a field is assigned again; an
assignment through a lookup that returned null changes nothing. -/
theorem plugins_static_up_to_entry_writes (c : Ctx)
    (hguard : truthy c.fingerprintPatched = false)
    (hdone : (inject c).completion = .normal) (ops : List PageOp) :
    pluginsLength ((Page.ofCtx (inject c).ctx).run ops).ctx = 3 ∧
    ((∀ op ∈ ops, op.isEntryWrite = false) →
      pluginEntries ((Page.ofCtx (inject c).ctx).run ops).ctx
        = [⟨"Chrome PDF Plugin", "internal-pdf-viewer", "Portable Document Format"⟩,
           ⟨"Chrome PDF Viewer", "mhjfbmdgcfjbbpaeojofohoefgiehjai", ""⟩,
           ⟨"Native Client", "internal-nacl-plugin", ""⟩]) ∧
    (∀ (e : Plugin) (v : String),
      e.assign .name v = ⟨v, e.filename, e.description⟩ ∧
      e.assign .filename v = ⟨e.name, v, e.description⟩ ∧
      e.assign .description v = ⟨e.name, e.filename, v⟩) ∧
    (∀ (field : Field) (v : String) (later : List PageOp),
      (∀ op ∈ later, op.isEntryWrite = false) →
      (∀ (i : Int) (e : Plugin) (after : List Plugin),
        item (pluginEntries ((Page.ofCtx (inject c).ctx).run ops).ctx) i = some e →
        after = pluginEntries
          ((((Page.ofCtx (inject c).ctx).run ops).step
            (.assignField (.byIndex i) field v)).run later).ctx →
        (pluginEntries ((Page.ofCtx (inject c).ctx).run ops).ctx).get? i.toNat = some e ∧
        after.length = 3 ∧ after.get? i.toNat = some (e.assign field v) ∧
        ∀ j, j ≠ i.toNat →
          after.get? j = (pluginEntries ((Page.ofCtx (inject c).ctx).run ops).ctx).get? j) ∧
      (∀ (n : String) (e : Plugin) (after : List Plugin),
        namedItem (pluginEntries ((Page.ofCtx (inject c).ctx).run ops).ctx) n = some e →
        after = pluginEntries
          ((((Page.ofCtx (inject c).ctx).run ops).step
            (.assignField (.byName n) field v)).run later).ctx →
        ∃ k, (pluginEntries ((Page.ofCtx (inject c).ctx).run ops).ctx).get? k = some e ∧
          (∀ j < k, ∀ q,
            (pluginEntries ((Page.ofCtx (inject c).ctx).run ops).ctx).get? j = some q → q.name ≠ n) ∧
          after.length = 3 ∧ after.get? k = some (e.assign field v) ∧
          ∀ j, j ≠ k →
            after.get? j = (pluginEntries ((Page.ofCtx (inject c).ctx).run ops).ctx).get? j) ∧
      (∀ (position : Nat) (e : Plugin) (after : List Plugin),
        (collect (pluginEntries ((Page.ofCtx (inject c).ctx).run ops).ctx)
          4 { i := 0, finished := false }).1.get? position = some e →
        after = pluginEntries
          ((((Page.ofCtx (inject c).ctx).run ops).step
            (.assignField (.byIteration position) field v)).run later).ctx →
        (pluginEntries ((Page.ofCtx (inject c).ctx).run ops).ctx).get? position = some e ∧
        after.length = 3 ∧ after.get? position = some (e.assign field v) ∧
        ∀ j, j ≠ position →
          after.get? j = (pluginEntries ((Page.ofCtx (inject c).ctx).run ops).ctx).get? j) ∧
      (∀ i : Int, item (pluginEntries ((Page.ofCtx (inject c).ctx).run ops).ctx) i = none →
        pluginEntries
          ((((Page.ofCtx (inject c).ctx).run ops).step
            (.assignField (.byIndex i) field v)).run later).ctx
          = pluginEntries ((Page.ofCtx (inject c).ctx).run ops).ctx) ∧
      (∀ n : String,
        namedItem (pluginEntries ((Page.ofCtx (inject c).ctx).run ops).ctx) n = none →
        pluginEntries
          ((((Page.ofCtx (inject c).ctx).run ops).step
            (.assignField (.byName n) field v)).run later).ctx
          = pluginEntries ((Page.ofCtx (inject c).ctx).run ops).ctx) ∧
      (∀ position : Nat,
        (collect (pluginEntries ((Page.ofCtx (inject c).ctx).run ops).ctx)
          4 { i := 0, finished := false }).1.get? position = none →
        pluginEntries
          ((((Page.ofCtx (inject c).ctx).run ops).step
            (.assignField (.byIteration position) field v)).run later).ctx
          = pluginEntries ((Page.ofCtx (inject c).ctx).run ops).ctx)) := by
  obtain ⟨entries, he, hlen, hE⟩ := pluginsMock_after_script c hguard hdone ops
  refine ⟨?_, ?_, fun e v => ⟨rfl, rfl, rfl⟩, ?_⟩
  · unfold pluginsLength
    rw [hE, hlen]
  · intro hops
    rw [pluginEntries_after_reads c hguard hdone ops hops]
    rfl
  · intro field v later hlater
    rw [hE]
    refine ⟨?_, ?_, ?_, ?_, ?_, ?_⟩
    · intro i e after hitem hafter
      obtain ⟨hres, hget⟩ := (resolve_byIndex entries i).1 e hitem
      exact ⟨hget, Page.assign_at _ entries he hlen _ field v later hlater _ e hres hget
        after hafter⟩
    · intro n e after hnamed hafter
      obtain ⟨k, hres, hget, hmin⟩ := firstNamed_of_namedItem entries n e hnamed
      exact ⟨k, hget, hmin, Page.assign_at _ entries he hlen (.byName n) field v later hlater
        k e hres hget after hafter⟩
    · intro position e after hyield hafter
      obtain ⟨hres, hget⟩ := (resolve_byIteration entries hlen position).1 e hyield
      exact ⟨hget, Page.assign_at _ entries he hlen _ field v later hlater _ e hres hget
        after hafter⟩
    · intro i hnone
      exact Page.assign_nowhere _ entries he _ field v later hlater
        ((resolve_byIndex entries i).2 hnone)
    · intro n hnone
      exact Page.assign_nowhere _ entries he (.byName n) field v later hlater
        (firstNamed_of_namedItem_none entries n hnone)
    · intro position hnone
      exact Page.assign_nowhere _ entries he _ field v later hlater
        ((resolve_byIteration entries hlen position).2 hnone)

/-- The statement of `plugins_static_up_to_entry_writes` at the headless sample
host, for a script that only touches list objects. -/
theorem plugins_static_up_to_entry_writes_witness :
    truthy headlessHost.fingerprintPatched = false ∧
    (inject headlessHost).completion = .normal ∧
    (∀ op ∈ [PageOp.readPlugins, PageOp.setLength 0 9, PageOp.startIteration],
      op.isEntryWrite = false) ∧
    pluginEntries ((Page.ofCtx (inject headlessHost).ctx).run
      [.readPlugins, .setLength 0 9, .startIteration]).ctx
        = [⟨"Chrome PDF Plugin", "internal-pdf-viewer", "Portable Document Format"⟩,
           ⟨"Chrome PDF Viewer", "mhjfbmdgcfjbbpaeojofohoefgiehjai", ""⟩,
           ⟨"Native Client", "internal-nacl-plugin", ""⟩] :=
  ⟨rfl, rfl, by decide,
    (plugins_static_up_to_entry_writes headlessHost rfl rfl
      [.readPlugins, .setLength 0 9, .startIteration]).2.1 (by decide)⟩

/-- C9: after the routine ran to its end, every read of the locale list gives
exactly "en-US", "en", "ru-RU", "ru" in this order, whatever a page script read
before and whatever it did to the lists earlier reads returned; the list a read
returns is a new one, added to those already handed out. -/
theorem languages_fixed_every_read (c : Ctx) (hguard : truthy c.fingerprintPatched = false)
    (hdone : (inject c).completion = .normal) (ops : List PageOp) :
    readLanguages ((Page.ofCtx (inject c).ctx).run ops).ctx = ["en-US", "en", "ru-RU", "ru"] ∧
    (((Page.ofCtx (inject c).ctx).run ops).step .readLanguages).languageArrays
      = ((Page.ofCtx (inject c).ctx).run ops).languageArrays ++
          [[some "en-US", some "en", some "ru-RU", some "ru"]] := by
  have hinv : ((Page.ofCtx (inject c).ctx).run ops).ctx.languagesGetter = true :=
    Page.run_induction (fun p => p.ctx.languagesGetter = true)
      (fun p op hp => (Page.step_languagesGetter p op).trans hp) ops _
      (inject_languagesGetter c hguard hdone)
  have hread : readLanguages ((Page.ofCtx (inject c).ctx).run ops).ctx
      = ["en-US", "en", "ru-RU", "ru"] := by
    unfold readLanguages
    rw [hinv]
    rfl
  refine ⟨hread, ?_⟩
  show _ ++ [(readLanguages _).map some] = _
  rw [hread]
  rfl

/-- The statement of `languages_fixed_every_read` at the headless sample host,
after a script that emptied a list it had read, refilled it and wrote past its
end. -/
theorem languages_fixed_every_read_witness :
    truthy headlessHost.fingerprintPatched = false ∧
    (inject headlessHost).completion = .normal ∧
    readLanguages ((Page.ofCtx (inject headlessHost).ctx).run
      [.readLanguages, .setLanguagesLength 0 0, .pushLanguage 0 "de-DE",
       .setLanguage 0 5 "fr-FR", .readLanguages]).ctx
      = ["en-US", "en", "ru-RU", "ru"] :=
  ⟨rfl, rfl,
    (languages_fixed_every_read headlessHost rfl rfl
      [.readLanguages, .setLanguagesLength 0 0, .pushLanguage 0 "de-DE",
       .setLanguage 0 5 "fr-FR", .readLanguages]).1⟩

/-- Assignments past the end of an array a read returned grow that array with
empty slots, and the next read is a new array. -/
theorem language_array_examples :
    ((Page.ofCtx (inject headlessHost).ctx).run
      [.readLanguages, .setLanguage 0 5 "fr-FR", .readLanguages,
       .setLanguagesLength 1 6]).languageArrays
      = [[some "en-US", some "en", some "ru-RU", some "ru", none, some "fr-FR"],
         [some "en-US", some "en", some "ru-RU", some "ru", none, none]] := by
  decide

/-! ## The vendor namespace -/

theorem lookupProp_setProp (t : Props) (k k' : String) (v : JSVal) :
    lookupProp (setProp t k v) k' = if k = k' then v else lookupProp t k' := by
  induction t with
  | nil => simp [setProp, lookupProp]
  | cons kv t ih =>
    obtain ⟨k0, v0⟩ := kv
    by_cases h0 : k0 = k
    · subst h0
      by_cases h1 : k0 = k' <;> simp [setProp, lookupProp, h1]
    · by_cases h1 : k0 = k'
      · subst h1
        simp [setProp, lookupProp, h0, Ne.symm h0]
      · simp [setProp, lookupProp, h0, h1, ih]

theorem hasProp_setProp (t : Props) (k k' : String) (v : JSVal) :
    hasProp (setProp t k v) k' = if k = k' then true else hasProp t k' := by
  induction t with
  | nil => simp [setProp, hasProp]
  | cons kv t ih =>
    obtain ⟨k0, v0⟩ := kv
    by_cases h0 : k0 = k
    · subst h0
      by_cases h1 : k0 = k' <;> simp [setProp, hasProp, h1]
    · by_cases h1 : k0 = k'
      · subst h1
        simp [setProp, hasProp, h0, Ne.symm h0]
      · simp [setProp, hasProp, h0, h1, ih]

/-- `Object.assign` leaves every key that the source does not have. -/
theorem lookupProp_objectAssign (source : Props) (k : String)
    (hk : k ∉ source.map (fun kv => kv.1)) :
    ∀ target : Props, lookupProp (objectAssign target source) k = lookupProp target k ∧
      hasProp (objectAssign target source) k = hasProp target k := by
  induction source with
  | nil => intro target; exact ⟨rfl, rfl⟩
  | cons kv source ih =>
    intro target
    have h1 : kv.1 ≠ k := fun e => hk (by simp [e])
    have h2 : k ∉ source.map (fun kv => kv.1) := fun h => hk (by simp_all)
    have := ih h2 (setProp target kv.1 kv.2)
    show lookupProp (objectAssign (setProp target kv.1 kv.2) source) k = _ ∧
      hasProp (objectAssign (setProp target kv.1 kv.2) source) k = _
    rw [this.1, this.2, lookupProp_setProp, hasProp_setProp, if_neg h1, if_neg h1]
    exact ⟨rfl, rfl⟩

/-- After the merge each of the four top-level keys of the patch holds the
patch's value. -/
theorem lookupProp_objectAssign_chromePatch (target : Props) :
    ∀ kv ∈ chromePatch, lookupProp (objectAssign target chromePatch) kv.1 = kv.2 := by
  intro kv hkv
  simp only [chromePatch, List.mem_cons, List.mem_singleton, List.not_mem_nil, or_false] at hkv
  rcases hkv with rfl | rfl | rfl | rfl <;>
    simp [objectAssign, chromePatch, lookupProp_setProp]

/-- The namespace a run leaves when it found a namespace object. -/
theorem inject_chrome (c : Ctx) (props : Props) (hguard : truthy c.fingerprintPatched = false)
    (hc : c.chrome = .obj props) :
    (inject c).ctx.chrome = .obj (objectAssign props chromePatch) := by
  have hd : ∀ d, patchChrome (patchPermissions (patchWebdriver (setGuard c))) = some d →
      d.chrome = .obj (objectAssign props chromePatch) := by
    intro d h
    have e : (patchPermissions (patchWebdriver (setGuard c))).chrome = .obj props := by
      simpa using hc
    unfold patchChrome at h
    rw [e] at h
    cases h
    rfl
  rcases inject_cases c with ⟨h0, _⟩ | ⟨_, hn, _⟩ | ⟨d, _, hpc, _, e1⟩ |
    ⟨d, e0, _, hpc, hsd, _, _, e1⟩
  · rw [hguard] at h0; cases h0
  · rw [hc] at hn; cases hn
  · rw [e1]; simpa using hd d hpc
  · rw [e1]; simpa [scrubDom_chrome hsd] using hd d hpc

/-- The claim C7 fails as stated: the host's `chrome.app` has a member
`getDetails`, which is not among the stubbed members, and after the run
`chrome.app` is the patch's object, without it; the top-level member
`webstore` is kept. -/
theorem chrome_nested_member_lost :
    getProp (lookupProp (chromeProps headlessHost) "app") "getDetails" = .fn "getDetails" ∧
    getProp (lookupProp (chromeProps (inject headlessHost).ctx) "app") "getDetails"
      = .undefined ∧
    hasProp (chromeProps headlessHost) "webstore" = true ∧
    hasProp (chromeProps (inject headlessHost).ctx) "webstore" = true :=
  ⟨rfl, rfl, rfl, rfl⟩

/-- C7, amended: the merge is additive at the top level only.  When the
routine runs in an unpatched context whose namespace is an object, it ends
normally exactly when the document has a root element (the merge itself never
fails), every top-level member other than `runtime`, `loadTimes`, `csi` and
`app` is afterwards present exactly when it was before and has the same value,
and each of these four is afterwards the patch's own value, whatever the host
had under that key (members nested under the host's `runtime` or `app` are not
carried over). -/
theorem chrome_merge_top_level (c : Ctx) (props : Props)
    (hguard : truthy c.fingerprintPatched = false) (hc : c.chrome = .obj props) :
    ((inject c).completion = .normal ↔ c.documentElement ≠ none) ∧
    chromePatchKeys = ["runtime", "loadTimes", "csi", "app"] ∧
    (∀ k : String, k ∉ chromePatchKeys →
      lookupProp (chromeProps (inject c).ctx) k = lookupProp props k ∧
      hasProp (chromeProps (inject c).ctx) k = hasProp props k) ∧
    (∀ kv ∈ chromePatch, lookupProp (chromeProps (inject c).ctx) kv.1 = kv.2) := by
  have hafter := inject_chrome c props hguard hc
  have e : chromeProps (inject c).ctx = objectAssign props chromePatch := by
    unfold chromeProps
    rw [hafter]
  have hdone : (inject c).completion = .normal ↔ c.documentElement ≠ none := by
    rw [inject_completion, hguard, hc]
    simp
  rw [e]
  exact ⟨hdone, rfl, fun k hk => lookupProp_objectAssign chromePatch k hk props,
    lookupProp_objectAssign_chromePatch props⟩

/-- The statement of `chrome_merge_top_level` at the headless sample host. -/
theorem chrome_merge_top_level_witness :
    truthy headlessHost.fingerprintPatched = false ∧
    headlessHost.chrome = .obj (chromeProps headlessHost) ∧
    (inject headlessHost).completion = .normal ∧
    chromePatchKeys = ["runtime", "loadTimes", "csi", "app"] ∧
    (∀ k : String, k ∉ chromePatchKeys →
      lookupProp (chromeProps (inject headlessHost).ctx) k
        = lookupProp (chromeProps headlessHost) k ∧
      hasProp (chromeProps (inject headlessHost).ctx) k
        = hasProp (chromeProps headlessHost) k) ∧
    (∀ kv ∈ chromePatch, lookupProp (chromeProps (inject headlessHost).ctx) kv.1 = kv.2) :=
  have h := chrome_merge_top_level headlessHost (chromeProps headlessHost) rfl rfl
  ⟨rfl, rfl, rfl, h.2⟩

/-! ## Absent targets -/

theorem patchPermissions_none (c : Ctx) (h : c.permissions = none) :
    (patchPermissions c).permissions = none := by
  unfold patchPermissions
  simp [h]

/-- Section 8 wraps the entry point when there is one, and only then. -/
theorem hookWindowOpen_windowOpen (c : Ctx) :
    (hookWindowOpen c).windowOpen = c.windowOpen.map OpenFn.patched := by
  unfold hookWindowOpen
  split
  · rename_i f hf
    simp [hf]
  · rename_i hf
    simp [hf]

/-- The entry point a run leaves when it ran to its end. -/
theorem inject_windowOpen (c : Ctx) (hguard : truthy c.fingerprintPatched = false)
    (hdone : (inject c).completion = .normal) :
    (inject c).ctx.windowOpen = c.windowOpen.map OpenFn.patched := by
  obtain ⟨d, e, hc, hd, hrun⟩ := inject_done c hguard hdone
  rw [hrun]
  simp [hookWindowOpen_windowOpen, scrubDom_windowOpen hd, patchChrome_windowOpen hc]

/-- In an unpatched host whose namespace is undefined or an object and whose
document has a root element, the routine ends normally, leaves each absent
target absent, wraps or merges each present one, and applies the other rules. -/
theorem inject_of_undefined_or_object (c : Ctx) (hguard : truthy c.fingerprintPatched = false)
    (hchrome : c.chrome ≠ .null) (hroot : c.documentElement ≠ none) :
    (inject c).completion = .normal ∧
    (c.permissions = none → (inject c).ctx.permissions = none) ∧
    (installedQuery c = none → installedQuery (inject c).ctx = none) ∧
    (c.chrome = .undefined → (inject c).ctx.chrome = .undefined) ∧
    (c.windowOpen = none → (inject c).ctx.windowOpen = none) ∧
    (∀ q, installedQuery c = some q → installedQuery (inject c).ctx = some (.patched q)) ∧
    (∀ props, c.chrome = .obj props →
      (inject c).ctx.chrome = .obj (objectAssign props chromePatch)) ∧
    (∀ f, c.windowOpen = some f → (inject c).ctx.windowOpen = some (.patched f)) ∧
    readWebdriver (inject c).ctx = false ∧
    pluginsLength (inject c).ctx = 3 ∧
    readLanguages (inject c).ctx = ["en-US", "en", "ru-RU", "ru"] := by
  have hdone : (inject c).completion = .normal :=
    (inject_completion c).2 (Or.inr ⟨hchrome, hroot⟩)
  refine ⟨hdone, ?_, ?_, ?_, ?_, ?_, ?_, ?_, ?_, ?_, ?_⟩
  · intro h
    rw [inject_permissions c hguard]
    exact patchPermissions_none c h
  · intro h
    rw [inject_installedQuery c hguard, h]
    rfl
  · intro h
    obtain ⟨d, e, hc, hd, hrun⟩ := inject_done c hguard hdone
    rw [hrun]
    unfold patchChrome at hc
    simp only [patchPermissions_chrome, patchWebdriver_chrome, setGuard_chrome, h] at hc
    cases hc
    simpa [scrubDom_chrome hd] using h
  · intro h
    rw [inject_windowOpen c hguard hdone, h]
    rfl
  · intro q h
    rw [inject_installedQuery c hguard, h]
    rfl
  · intro props h
    exact inject_chrome c props hguard h
  · intro f h
    rw [inject_windowOpen c hguard hdone, h]
    rfl
  · unfold readWebdriver
    rw [inject_webdriverGetter c hguard hdone]
  · unfold pluginsLength pluginEntries
    rw [inject_pluginsMock c hguard hdone]
    rfl
  · unfold readLanguages
    rw [inject_languagesGetter c hguard hdone]
    rfl

/-- The claim C10 against the code: in the sample host that has no permission
API, no context-creation entry point and a `window.chrome` that is null (no
namespace object is there), the test `typeof window.chrome !== 'undefined'`
passes, `Object.assign` throws on the null target and the routine stops after
section 2: it raises a `TypeError`, the plugin list still has the host's count
0 and the locale list is still the host's, where the claim says the run ends
without raising, the count is 3 and the list is the fixed one.  The same host
with an undefined namespace is patched in full. -/
theorem null_namespace_aborts_routine :
    nullNamespaceHost.permissions = none ∧
    nullNamespaceHost.windowOpen = none ∧
    nullNamespaceHost.chrome = .null ∧
    (inject nullNamespaceHost).completion = .threw "TypeError" ∧
    (inject nullNamespaceHost).console = ["[Fingerprint Patch] Starting full injection..."] ∧
    readWebdriver (inject nullNamespaceHost).ctx = false ∧
    pluginsLength (inject nullNamespaceHost).ctx = 0 ∧
    readLanguages (inject nullNamespaceHost).ctx = ["en-US"] ∧
    (inject nullNamespaceHost).ctx.checkFingerprint = false ∧
    (inject bareHost).completion = .normal ∧
    pluginsLength (inject bareHost).ctx = 3 ∧
    readLanguages (inject bareHost).ctx = ["en-US", "en", "ru-RU", "ru"] :=
  ⟨rfl, rfl, rfl, rfl, rfl, rfl, rfl, rfl, rfl, rfl, rfl, rfl⟩

/-- In a document without a root element the routine stops at section 7, after
the accessors are defined and before `window.open` is wrapped. -/
theorem rootless_document_aborts_routine :
    (inject rootlessHost).completion = .threw "TypeError" ∧
    pluginsLength (inject rootlessHost).ctx = 3 ∧
    readLanguages (inject rootlessHost).ctx = ["en-US", "en", "ru-RU", "ru"] ∧
    (inject { rootlessHost with windowOpen := some .host }).ctx.windowOpen = some .host ∧
    (inject rootlessHost).ctx.timers = [] := by
  decide

/-! ## The context-creation entry point -/

/-- The routine never defines the global `inject`. -/
theorem inject_injectProp (c : Ctx) : (inject c).ctx.injectProp = c.injectProp := by
  rcases inject_cases c with ⟨_, e⟩ | ⟨_, _, e⟩ | ⟨d, _, hc, _, e⟩ | ⟨d, e0, _, hc, hd, _, _, e⟩
  · rw [e]
  · rw [e]; simp
  · rw [e]; simp [patchChrome_injectProp hc]
  · rw [e]; simp [scrubDom_injectProp hd, patchChrome_injectProp hc]

/-- The deferred task changes nothing when `this.inject` is not a function. -/
theorem runTask_reinject_of_undefined (w : World) (this : Recv) (newWindow delay : Nat)
    (h : injectSource w this = none) :
    runTask w (.reinject this newWindow delay) = (w, .normal) := by
  simp [runTask, reinjectBody, h]

/-- The wrapper forwards to the original and adds at most one timer. -/
theorem callOpen_patched (host : World → Recv → List JSVal → HostOpened) (owner : Nat)
    (f : OpenFn) (w : World) (this : Recv) (args : List JSVal) :
    (callOpen host owner (.patched f) w this args).result
      = (callOpen host owner f w this args).result ∧
    (callOpen host owner (.patched f) w this args).hostCalls
      = (callOpen host owner f w this args).hostCalls ∧
    (callOpen host owner (.patched f) w this args).world
      = match (callOpen host owner f w this args).result with
        | .window newWindow =>
          schedule (callOpen host owner f w this args).world owner (.reinject this newWindow 500)
        | _ => (callOpen host owner f w this args).world := by
  simp only [callOpen]
  generalize callOpen host owner f w this args = r
  obtain ⟨world, result, calls⟩ := r
  cases result <;> exact ⟨rfl, rfl, rfl⟩

/-- The host's entry point is called once, with the receiver and the arguments
given. -/
theorem hostOpen_hostCalls (host : World → Recv → List JSVal → HostOpened) (w : World)
    (this : Recv) (args : List JSVal) : (hostOpen host w this args).hostCalls = [(this, args)] := by
  unfold hostOpen
  split <;> rfl

/-- C6: after the routine ran to its end in a context that has a
context-creation entry point, the entry point now installed is transparent:
for every behaviour of the host, every receiver and every argument list, a
call gives the result of the original called with the same receiver and
arguments (a thrown error, null, or the window), reaches the host's own entry
point exactly as the original does (once, with this receiver and these
arguments, when the original is the host's), leaves the world as the original
left it when the result is not a window, and otherwise only adds one timer of
500 ms in the calling context; and running a re-injection task ends normally
in every world, whatever the new window does when asked to evaluate. -/
theorem window_open_transparent (c : Ctx) (originalWindowOpen : OpenFn)
    (hguard : truthy c.fingerprintPatched = false)
    (hdone : (inject c).completion = .normal)
    (hopen : c.windowOpen = some originalWindowOpen) :
    ∃ f, (inject c).ctx.windowOpen = some f ∧
      (∀ (host : World → Recv → List JSVal → HostOpened) (owner : Nat) (w : World)
          (this : Recv) (args : List JSVal),
        (callOpen host owner f w this args).result
          = (callOpen host owner originalWindowOpen w this args).result ∧
        (callOpen host owner f w this args).hostCalls
          = (callOpen host owner originalWindowOpen w this args).hostCalls ∧
        (originalWindowOpen = .host →
          (callOpen host owner f w this args).hostCalls = [(this, args)]) ∧
        (callOpen host owner f w this args).world
          = match (callOpen host owner originalWindowOpen w this args).result with
            | .window newWindow =>
              schedule (callOpen host owner originalWindowOpen w this args).world owner
                (.reinject this newWindow 500)
            | _ => (callOpen host owner originalWindowOpen w this args).world) ∧
      (∀ (w : World) (this : Recv) (newWindow delay : Nat),
        (runTask w (.reinject this newWindow delay)).2 = .normal) := by
  refine ⟨.patched originalWindowOpen, ?_, ?_, ?_⟩
  · rw [inject_windowOpen c hguard hdone, hopen]
    rfl
  · intro host owner w this args
    obtain ⟨h1, h2, h3⟩ := callOpen_patched host owner originalWindowOpen w this args
    refine ⟨h1, h2, ?_, h3⟩
    intro hf
    rw [h2, hf]
    exact hostOpen_hostCalls host w this args
  · intro w this newWindow delay
    rfl

/-- The statement of `window_open_transparent` at the headless sample host. -/
theorem window_open_transparent_witness :
    truthy headlessHost.fingerprintPatched = false ∧
    (inject headlessHost).completion = .normal ∧
    headlessHost.windowOpen = some .host ∧
    ∃ f, (inject headlessHost).ctx.windowOpen = some f ∧
      (∀ (host : World → Recv → List JSVal → HostOpened) (owner : Nat) (w : World)
          (this : Recv) (args : List JSVal),
        (callOpen host owner f w this args).result
          = (callOpen host owner .host w this args).result ∧
        (callOpen host owner f w this args).hostCalls
          = (callOpen host owner .host w this args).hostCalls ∧
        (OpenFn.host = .host →
          (callOpen host owner f w this args).hostCalls = [(this, args)]) ∧
        (callOpen host owner f w this args).world
          = match (callOpen host owner .host w this args).result with
            | .window newWindow =>
              schedule (callOpen host owner .host w this args).world owner
                (.reinject this newWindow 500)
            | _ => (callOpen host owner .host w this args).world) ∧
      (∀ (w : World) (this : Recv) (newWindow delay : Nat),
        (runTask w (.reinject this newWindow delay)).2 = .normal) :=
  ⟨rfl, rfl, rfl, window_open_transparent headlessHost .host rfl rfl rfl⟩

/-- A blocked call returns null and schedules nothing; a call that opens a
window returns it and schedules one re-injection task. -/
theorem window_open_examples :
    timersIn (openFrom blockingHost patchedWorld 0 (.window 0) []).world 0
      = [.selfCheck 2000] ∧
    timersIn (openFrom openingHost patchedWorld 0 (.window 0) []).world 0
      = [.selfCheck 2000, .reinject (.window 0) 1 500] := by
  decide

/-- The claim C5 against the code: the routine ran in the headless sample host,
the page calls the wrapped `window.open` as a method of its window, the host
opens a new same-origin window (handle 1) in which the automation flag reads
true, and the wrapper schedules the task.  The routine defined no global
`inject`, so the task's `this.inject.toString()` throws, the error is
swallowed, and once the task has run the flag in the new window still reads
true. -/
theorem reinject_task_leaves_new_window_unpatched :
    (inject headlessHost).ctx.injectProp = .undefined ∧
    timersIn (openFrom openingHost patchedWorld 0 (.window 0) []).world 0
      = [.selfCheck 2000, .reinject (.window 0) 1 500] ∧
    webdriverIn (openFrom openingHost patchedWorld 0 (.window 0) []).world 1
      = some true ∧
    (reinjectBody (openFrom openingHost patchedWorld 0 (.window 0) []).world
      (.window 0) 1).2 = .threw "TypeError" ∧
    webdriverIn (runTask
      (openFrom openingHost patchedWorld 0 (.window 0) []).world
      (.reinject (.window 0) 1 500)).1 1 = some true := by
  decide

/-- Had the launcher defined the global `inject` as the patch routine, the same
call and task would leave the flag in the new window reading false. -/
theorem reinject_task_with_launcher_inject :
    webdriverIn (runTask
      (openFrom openingHost launcherWorld 0 (.window 0) []).world
      (.reinject (.window 0) 1 500)).1 1 = some false := by
  decide

end FingerprintPatch
